import Mathlib

/-!
Verification of the swagger-to-postman chunking / embedding-cache / vector-store
core against its specification.

The Python source is shallowly embedded:
* machine words of SHA-256 are `Nat` reduced with `% 2 ^ 32` where overflow matters;
* Python values (the parsed specification document, chunk metadata values) are an
  inductive `PyVal` of JSON-like trees (floats never flow into any hashed or
  compared data in the verified core, so they are not represented);
* embedding vectors are opaque ordered lists `List α` (their float elements are
  never inspected by the core, only stored and returned);
* stateful code is modelled by explicit state passing, Python exceptions by
  `Except PyErr`, and the `uuid4` randomness of the vector store by an explicit
  stream of identifiers threaded through the call;
* the filesystem state of the cache index is modelled by `DiskFile`, the outcome
  alphabet of the `json.load`-over-locked-file collaborator.
-/

set_option maxRecDepth 4000000

/-! ## Small string and list utilities (structural, kernel-evaluable) -/

/-- Whitespace set of Python `str.strip` (ASCII part; the Unicode space
classes never occur at the boundary positions the proofs touch). -/
def isPySpace (c : Char) : Bool :=
  c = ' ' || c = '\t' || c = '\n' || c = '\r' || c = '\x0b' || c = '\x0c'

/-- Python `str.strip()`. -/
def pyStrip (s : String) : String :=
  String.mk (((s.data.dropWhile isPySpace).reverse.dropWhile isPySpace).reverse)

/-- ASCII lower-casing of one character (`str.lower` restricted to ASCII;
the HTTP-method allow-list comparison only distinguishes ASCII strings). -/
def charLower (c : Char) : Char :=
  if 'A' ≤ c && c ≤ 'Z' then Char.ofNat (c.toNat + 32) else c

/-- ASCII upper-casing of one character. -/
def charUpper (c : Char) : Char :=
  if 'a' ≤ c && c ≤ 'z' then Char.ofNat (c.toNat - 32) else c

/-- Python `str.lower()` (ASCII). -/
def pyLower (s : String) : String := String.mk (s.data.map charLower)

/-- Python `str.upper()` (ASCII). -/
def pyUpper (s : String) : String := String.mk (s.data.map charUpper)

/-- First `n` characters of a string (Python slice `[:n]`). -/
def strTake (s : String) (n : Nat) : String := String.mk (s.data.take n)

/-- Python `str.replace(old, new)` for one-character old/new, as used in
`path.replace('/', '_')`. -/
def pyReplaceChar (s : String) (old new : Char) : String :=
  String.mk (s.data.map (fun c => if c = old then new else c))

/-- `str.split(sep)` for the one-character separator `'/'`:
`""` splits to `[""]`, separators at the ends produce empty fields. -/
def splitSlashAux : List Char → List Char → List String
  | [], cur => [String.mk cur.reverse]
  | '/' :: rest, cur => String.mk cur.reverse :: splitSlashAux rest []
  | c :: rest, cur => splitSlashAux rest (c :: cur)

def splitSlash (l : List Char) : List String := splitSlashAux l []

/-- Substring test, Python `needle in hay` on strings. -/
def isSubstrList (needle : List Char) : List Char → Bool
  | [] => needle.isEmpty
  | c :: rest => needle.isPrefixOf (c :: rest) || isSubstrList needle rest

/-- `PurePath(source_file).name`: the part after the last `'/'` (trailing-slash
normalisation of `pathlib` is not reproduced; only the metadata filename field
depends on it). -/
def pathBaseName (s : String) : String := (splitSlash s.data).getLastD ""

/-! ## SHA-256 over byte lists (`hashlib.sha256`), words as `Nat % 2^32` -/

def M32 : Nat := 4294967296

def add32 (a b : Nat) : Nat := (a + b) % M32

def rotr32 (n x : Nat) : Nat := ((x >>> n) ||| (x <<< (32 - n))) % M32

def xor3 (a b c : Nat) : Nat := Nat.xor (Nat.xor a b) c

def bsig0 (x : Nat) : Nat := xor3 (rotr32 2 x) (rotr32 13 x) (rotr32 22 x)
def bsig1 (x : Nat) : Nat := xor3 (rotr32 6 x) (rotr32 11 x) (rotr32 25 x)
def ssig0 (x : Nat) : Nat := xor3 (rotr32 7 x) (rotr32 18 x) (x >>> 3)
def ssig1 (x : Nat) : Nat := xor3 (rotr32 17 x) (rotr32 19 x) (x >>> 10)

def chB (x y z : Nat) : Nat := Nat.xor (Nat.land x y) (Nat.land (Nat.xor x 4294967295) z)
def majB (x y z : Nat) : Nat := xor3 (Nat.land x y) (Nat.land x z) (Nat.land y z)

def K256 : List Nat :=
  [1116352408, 1899447441, 3049323471, 3921009573, 961987163,
   1508970993, 2453635748, 2870763221, 3624381080, 310598401,
   607225278, 1426881987, 1925078388, 2162078206, 2614888103,
   3248222580, 3835390401, 4022224774, 264347078, 604807628,
   770255983, 1249150122, 1555081692, 1996064986, 2554220882,
   2821834349, 2952996808, 3210313671, 3336571891, 3584528711,
   113926993, 338241895, 666307205, 773529912, 1294757372,
   1396182291, 1695183700, 1986661051, 2177026350, 2456956037,
   2730485921, 2820302411, 3259730800, 3345764771, 3516065817,
   3600352804, 4094571909, 275423344, 430227734, 506948616,
   659060556, 883997877, 958139571, 1322822218, 1537002063,
   1747873779, 1955562222, 2024104815, 2227730452, 2361852424,
   2428436474, 2756734187, 3204031479, 3329325298]

structure Hash8 where
  h0 : Nat
  h1 : Nat
  h2 : Nat
  h3 : Nat
  h4 : Nat
  h5 : Nat
  h6 : Nat
  h7 : Nat

def initH : Hash8 :=
  ⟨1779033703, 3144134277, 1013904242, 2773480762,
   1359893119, 2600822924, 528734635, 1541459225⟩

/-- Big-endian 32-bit words from a byte list (bytes are `< 256`). -/
def words16 : List Nat → List Nat
  | a :: b :: c :: d :: rest => (a * 0x1000000 + b * 0x10000 + c * 0x100 + d) :: words16 rest
  | _ => []

/-- One new word of the SHA-256 message schedule; `recent` holds the words
produced so far, newest first. -/
def newW (recent : List Nat) : Nat :=
  add32 (add32 (ssig1 (recent.getD 1 0)) (recent.getD 6 0))
        (add32 (ssig0 (recent.getD 14 0)) (recent.getD 15 0))

def extendW : Nat → List Nat → List Nat
  | 0, acc => acc.reverse
  | k + 1, acc => extendW k (newW acc :: acc)

def msgSchedule (block : List Nat) : List Nat := extendW 48 (words16 block).reverse

def roundStep (s : Hash8) (kw : Nat × Nat) : Hash8 :=
  let t1 := add32 s.h7 (add32 (bsig1 s.h4) (add32 (chB s.h4 s.h5 s.h6) (add32 kw.1 kw.2)))
  let t2 := add32 (bsig0 s.h0) (majB s.h0 s.h1 s.h2)
  ⟨add32 t1 t2, s.h0, s.h1, s.h2, add32 s.h3 t1, s.h4, s.h5, s.h6⟩

def compressBlock (H : Hash8) (block : List Nat) : Hash8 :=
  let f := (K256.zip (msgSchedule block)).foldl roundStep H
  ⟨add32 H.h0 f.h0, add32 H.h1 f.h1, add32 H.h2 f.h2, add32 H.h3 f.h3,
   add32 H.h4 f.h4, add32 H.h5 f.h5, add32 H.h6 f.h6, add32 H.h7 f.h7⟩

/-- Big-endian 8-byte encoding of the bit length. -/
def lenBytes (n : Nat) : List Nat :=
  [(n >>> 56) % 256, (n >>> 48) % 256, (n >>> 40) % 256, (n >>> 32) % 256,
   (n >>> 24) % 256, (n >>> 16) % 256, (n >>> 8) % 256, n % 256]

def padMsg (msg : List Nat) : List Nat :=
  msg ++ 0x80 :: List.replicate ((119 - msg.length % 64) % 64) 0 ++ lenBytes (msg.length * 8)

/-- Split into 64-byte blocks; the fuel argument (instantiated with the list
length) keeps the recursion structural, hence kernel-evaluable. -/
def splitB : Nat → List Nat → List (List Nat)
  | 0, _ => []
  | _, [] => []
  | fuel + 1, l => l.take 64 :: splitB fuel (l.drop 64)

def shaWords (msg : List Nat) : Hash8 :=
  (splitB (padMsg msg).length (padMsg msg)).foldl compressBlock initH

def hexDig (n : Nat) : Char :=
  if n < 10 then Char.ofNat (48 + n) else Char.ofNat (87 + n)

def hexWord (w : Nat) : List Char :=
  [hexDig ((w >>> 28) % 16), hexDig ((w >>> 24) % 16), hexDig ((w >>> 20) % 16),
   hexDig ((w >>> 16) % 16), hexDig ((w >>> 12) % 16), hexDig ((w >>> 8) % 16),
   hexDig ((w >>> 4) % 16), hexDig (w % 16)]

def hash8Hex (H : Hash8) : String :=
  String.mk (hexWord H.h0 ++ hexWord H.h1 ++ hexWord H.h2 ++ hexWord H.h3 ++
             hexWord H.h4 ++ hexWord H.h5 ++ hexWord H.h6 ++ hexWord H.h7)

/-- UTF-8 bytes of one character (`str.encode("utf-8")`). -/
def utf8Char (c : Char) : List Nat :=
  let n := c.toNat
  if n < 0x80 then [n]
  else if n < 0x800 then [0xC0 + n / 0x40, 0x80 + n % 0x40]
  else if n < 0x10000 then [0xE0 + n / 0x1000, 0x80 + (n / 0x40) % 0x40, 0x80 + n % 0x40]
  else [0xF0 + n / 0x40000, 0x80 + (n / 0x1000) % 0x40, 0x80 + (n / 0x40) % 0x40, 0x80 + n % 0x40]

def utf8Encode (s : String) : List Nat := s.data.flatMap utf8Char

/-- `hashlib.sha256(s.encode("utf-8")).hexdigest()`. -/
def sha256hex (s : String) : String := hash8Hex (shaWords (utf8Encode s))

example : sha256hex "abc" = "ba7816bf8f01cfea414140de5dae2223b00361a396177a9cb410ff61f20015ad" := by
  decide

/-! ## Python values

`PyVal` embeds the JSON-like value universe the core manipulates: the parsed
specification document, schema fragments and chunk metadata values. -/

inductive PyVal where
  | none
  | bool (b : Bool)
  | int (n : Int)
  | str (s : String)
  | list (xs : List PyVal)
  | dict (es : List (String × PyVal))

/-- Python type name, used in faithful exception messages. -/
def pyTypeName : PyVal → String
  | .none => "NoneType"
  | .bool _ => "bool"
  | .int _ => "int"
  | .str _ => "str"
  | .list _ => "list"
  | .dict _ => "dict"

/-- First-occurrence association lookup (Python `dict` keyed access; dicts
built by the embedded code never carry duplicate keys). -/
def alookup : List (String × PyVal) → String → Option PyVal
  | [], _ => Option.none
  | (k, v) :: rest, key => if k = key then some v else alookup rest key

/-- Python `d[k] = v`: overwrite in place when the key exists, else append. -/
def dictSet : List (String × PyVal) → String → PyVal → List (String × PyVal)
  | [], key, v => [(key, v)]
  | (k, w) :: rest, key, v =>
    if k = key then (k, v) :: rest else (k, w) :: dictSet rest key v

/-- Python truthiness (`if x:`) for the embedded values. -/
def pyTruthy : PyVal → Bool
  | .none => false
  | .bool b => b
  | .int n => n ≠ 0
  | .str s => s ≠ ""
  | .list xs => !xs.isEmpty
  | .dict es => !es.isEmpty

/-- Escaping of one character inside a Python `repr` string literal with
quote character `q`.  Printability of non-ASCII characters is approximated:
characters `≥ 0x80` are kept raw (the claims never hinge on the
`unicodedata`-printable classes). -/
def pyReprEscChar (q c : Char) : List Char :=
  if c = '\\' then ['\\', '\\']
  else if c = q then ['\\', q]
  else if c = '\n' then ['\\', 'n']
  else if c = '\r' then ['\\', 'r']
  else if c = '\t' then ['\\', 't']
  else if c.toNat < 0x20 || c.toNat = 0x7f then
    ['\\', 'x', hexDig (c.toNat / 16), hexDig (c.toNat % 16)]
  else [c]

/-- Python `repr` of a `str`: single quotes, switching to double quotes when
the text contains `'` but no `"`. -/
def pyReprStr (s : String) : String :=
  let q := if s.data.contains '\'' && !(s.data.contains '"') then '"' else '\''
  String.mk (q :: s.data.flatMap (pyReprEscChar q) ++ [q])

mutual

/-- Python `repr` of an embedded value. -/
def pyReprV : PyVal → String
  | .none => "None"
  | .bool b => if b then "True" else "False"
  | .int n => toString n
  | .str s => pyReprStr s
  | .list xs => "[" ++ pyReprL xs ++ "]"
  | .dict es => "\x7b" ++ pyReprD es ++ "\x7d"

def pyReprL : List PyVal → String
  | [] => ""
  | [x] => pyReprV x
  | x :: y :: xs => pyReprV x ++ ", " ++ pyReprL (y :: xs)

def pyReprD : List (String × PyVal) → String
  | [] => ""
  | [(k, v)] => pyReprStr k ++ ": " ++ pyReprV v
  | (k, v) :: e :: es => pyReprStr k ++ ": " ++ pyReprV v ++ ", " ++ pyReprD (e :: es)

end

/-- Python `str()` / f-string interpolation of an embedded value: identity on
strings, `repr` on containers (whose elements print with `repr`). -/
def pyStr : PyVal → String
  | .str s => s
  | v => pyReprV v

/-! ## `json.dumps(..., sort_keys=True)` with default `ensure_ascii=True` -/

/-- Four lowercase hex digits of `n < 0x10000`. -/
def hexQuad (n : Nat) : List Char :=
  [hexDig (n / 4096 % 16), hexDig (n / 256 % 16), hexDig (n / 16 % 16), hexDig (n % 16)]

/-- `json.dumps` escaping of one character (`ensure_ascii`): raw only for
printable ASCII `0x20..0x7E`, astral characters as UTF-16 surrogate pairs. -/
def jsonEscChar (c : Char) : List Char :=
  if c = '"' then ['\\', '"']
  else if c = '\\' then ['\\', '\\']
  else if c = '\n' then ['\\', 'n']
  else if c = '\r' then ['\\', 'r']
  else if c = '\t' then ['\\', 't']
  else if c.toNat = 8 then ['\\', 'b']
  else if c.toNat = 12 then ['\\', 'f']
  else if c.toNat < 0x20 then '\\' :: 'u' :: hexQuad c.toNat
  else if c.toNat < 0x7f then [c]
  else if c.toNat < 0x10000 then '\\' :: 'u' :: hexQuad c.toNat
  else '\\' :: 'u' :: hexQuad (0xD800 + (c.toNat - 0x10000) / 0x400) ++
       '\\' :: 'u' :: hexQuad (0xDC00 + (c.toNat - 0x10000) % 0x400)

def jsonEscList (l : List Char) : List Char := l.flatMap jsonEscChar

/-- JSON string literal for `s`. -/
def jsonStrLit (s : String) : String := String.mk ('"' :: jsonEscList s.data ++ ['"'])

/-- Code-point lexicographic order on strings (Python `str <`). -/
def strLtB : List Char → List Char → Bool
  | [], [] => false
  | [], _ :: _ => true
  | _ :: _, [] => false
  | a :: as, b :: bs =>
    if a.toNat < b.toNat then true
    else if b.toNat < a.toNat then false
    else strLtB as bs

/-- Stable insertion sort of dict entries by key (`sort_keys=True`). -/
def insertSorted (p : String × PyVal) : List (String × PyVal) → List (String × PyVal)
  | [] => [p]
  | q :: rest => if strLtB p.1.data q.1.data then p :: q :: rest else q :: insertSorted p rest

def sortByKey : List (String × PyVal) → List (String × PyVal)
  | [] => []
  | p :: rest => insertSorted p (sortByKey rest)

mutual

/-- Recursively sort every dict of the tree by key (the effect of
`sort_keys=True` ahead of serialisation). -/
def sortAll : PyVal → PyVal
  | .none => .none
  | .bool b => .bool b
  | .int n => .int n
  | .str s => .str s
  | .list xs => .list (sortAllL xs)
  | .dict es => .dict (sortByKey (sortAllD es))

def sortAllL : List PyVal → List PyVal
  | [] => []
  | x :: xs => sortAll x :: sortAllL xs

def sortAllD : List (String × PyVal) → List (String × PyVal)
  | [] => []
  | (k, v) :: es => (k, sortAll v) :: sortAllD es

end

mutual

/-- Serialisation with the default separators `", "`/`": "`, dict entries
taken in the order given. -/
def jsonDumpsRaw : PyVal → String
  | .none => "null"
  | .bool b => if b then "true" else "false"
  | .int n => toString n
  | .str s => jsonStrLit s
  | .list xs => "[" ++ jsonDumpsL xs ++ "]"
  | .dict es => "\x7b" ++ jsonDumpsD es ++ "\x7d"

def jsonDumpsL : List PyVal → String
  | [] => ""
  | [x] => jsonDumpsRaw x
  | x :: y :: xs => jsonDumpsRaw x ++ ", " ++ jsonDumpsL (y :: xs)

def jsonDumpsD : List (String × PyVal) → String
  | [] => ""
  | [(k, v)] => jsonStrLit k ++ ": " ++ jsonDumpsRaw v
  | (k, v) :: e :: es => jsonStrLit k ++ ": " ++ jsonDumpsRaw v ++ ", " ++ jsonDumpsD (e :: es)

end

/-- `json.dumps(v, sort_keys=True)` (default `ensure_ascii=True` separators). -/
def jsonDumps (v : PyVal) : String := jsonDumpsRaw (sortAll v)

example : jsonDumps (.dict [("text", .str "hi"), ("metadata", .dict [("type", .str "swagger")])]) =
    "\x7b\"metadata\": \x7b\"type\": \"swagger\"\x7d, \"text\": \"hi\"\x7d" := rfl

/-! ## Python exceptions and object protocol -/

inductive PyErr where
  | keyError (msg : String)
  | attributeError (msg : String)
  | typeError (msg : String)
  | valueError (msg : String)
  | indexError (msg : String)
  | osError (msg : String)

/-- `obj.get(key, default)` — only dicts have `.get`; a stored `None` (JSON
null) is returned as such, the default applies only to an absent key. -/
def pyGet (v : PyVal) (key : String) (dflt : PyVal) : Except PyErr PyVal :=
  match v with
  | .dict es => .ok ((alookup es key).getD dflt)
  | v => .error (.attributeError ("'" ++ pyTypeName v ++ "' object has no attribute 'get'"))

/-- `obj.items()` — only dicts. -/
def pyItems (v : PyVal) : Except PyErr (List (String × PyVal)) :=
  match v with
  | .dict es => .ok es
  | v => .error (.attributeError ("'" ++ pyTypeName v ++ "' object has no attribute 'items'"))

/-- `obj.keys()` — only dicts. -/
def pyKeys (v : PyVal) : Except PyErr (List String) :=
  match v with
  | .dict es => .ok (es.map (fun kv => kv.1))
  | v => .error (.attributeError ("'" ++ pyTypeName v ++ "' object has no attribute 'keys'"))

/-- Python iteration `for x in v`: lists yield elements, strings yield
one-character strings, dicts yield their keys. -/
def pyIter (v : PyVal) : Except PyErr (List PyVal) :=
  match v with
  | .list xs => .ok xs
  | .str s => .ok (s.data.map (fun c => .str (String.mk [c])))
  | .dict es => .ok (es.map (fun kv => .str kv.1))
  | v => .error (.typeError ("'" ++ pyTypeName v ++ "' object is not iterable"))

/-- Python `key in v` for a string key: dict key test, list membership,
substring test on strings. -/
def pyContains (v : PyVal) (key : String) : Except PyErr Bool :=
  match v with
  | .dict es => .ok (es.any (fun kv => kv.1 == key))
  | .list xs => .ok (xs.any (fun x => match x with | .str s => s == key | _ => false))
  | .str s => .ok (isSubstrList key.data s.data)
  | v => .error (.typeError ("argument of type '" ++ pyTypeName v ++ "' is not iterable"))

/-- Python subscription `v[key]` with a string key. -/
def pySubscript (v : PyVal) (key : String) : Except PyErr PyVal :=
  match v with
  | .dict es =>
    match alookup es key with
    | some x => .ok x
    | Option.none => .error (.keyError key)
  | .str _ => .error (.typeError "string indices must be integers")
  | .list _ => .error (.typeError "list indices must be integers or slices, not str")
  | v => .error (.typeError ("'" ++ pyTypeName v ++ "' object is not subscriptable"))

/-- A value about to be used as a `$ref` string: `_resolve_ref` immediately
calls `.lstrip` on it, which only `str` has. -/
def pyExpectStr (v : PyVal) : Except PyErr String :=
  match v with
  | .str s => .ok s
  | v => .error (.attributeError ("'" ++ pyTypeName v ++ "' object has no attribute 'lstrip'"))

/-! ## `SwaggerChunker` (src/backend/chunking/swagger_chunker.py) -/

/-- String values of the `ChunkType` enum members used by the chunker. -/
def ChunkType_SWAGGER : String := "swagger"

def ChunkType_TEXT : String := "free_text"

/-- `ref.lstrip("#/")`: drop every leading character of the set. -/
def refLstrip (ref : String) : List Char :=
  ref.data.dropWhile (fun c => c = '#' || c = '/')

/-- The `ref_path` of `_resolve_ref`. -/
def refSegments (ref : String) : List String := splitSlash (refLstrip ref)

/-- Python `x is None` for embedded values. -/
def isNoneB : PyVal → Bool
  | .none => true
  | _ => false

/-- The walk of `_resolve_ref`: `result = result.get(part)`, with the `None`
check raising `KeyError(f"Unable to resolve $ref: {ref}")`; calling `.get` on
a non-dict intermediate raises `AttributeError`. -/
def resolveSteps (ref : String) : List String → PyVal → Except PyErr PyVal
  | [], result => .ok result
  | part :: rest, result =>
    match result with
    | .dict es =>
      let r := (alookup es part).getD .none
      if isNoneB r then .error (.keyError ("Unable to resolve $ref: " ++ ref))
      else resolveSteps ref rest r
    | v => .error (.attributeError ("'" ++ pyTypeName v ++ "' object has no attribute 'get'"))

/-- `SwaggerChunker._resolve_ref`. -/
def resolve_ref (swagger : PyVal) (ref : String) : Except PyErr PyVal :=
  resolveSteps ref (refSegments ref) swagger

/-- Resolution of a `$ref` value fetched from a schema: the value reaches
`_resolve_ref` as-is and a non-string fails at `ref.lstrip`. -/
def resolveRefVal (swagger : PyVal) (refVal : PyVal) : Except PyErr PyVal := do
  let s ← pyExpectStr refVal
  resolve_ref swagger s

/-- `SwaggerChunker._generate_chunk_id`. -/
def generate_chunk_id (base : String) : String := strTake (sha256hex base) 16

/-- A produced chunk (`{"id", "type", "text", "metadata"}`); the `type` of an
operation chunk is the `ChunkType.SWAGGER` member, whose string content is
`"swagger"`. -/
structure Chunk where
  id : String
  type : String
  text : String
  metadata : List (String × PyVal)

structure Chunker where
  swagger : PyVal
  source_file : String
  components : PyVal
  security_schemes : PyVal
  global_security : PyVal
  chunks : List Chunk

/-- `SwaggerChunker.__init__`; the `.get` chains on a malformed document can
raise, so construction is fallible. -/
def SwaggerChunker_init (swagger : PyVal) (source_file : String) : Except PyErr Chunker := do
  let comps ← pyGet swagger "components" (.dict [])
  let components ← pyGet comps "schemas" (.dict [])
  let comps2 ← pyGet swagger "components" (.dict [])
  let security_schemes ← pyGet comps2 "securitySchemes" (.dict [])
  let global_security ← pyGet swagger "security" (.list [])
  .ok { swagger := swagger, source_file := pathBaseName source_file,
        components := components, security_schemes := security_schemes,
        global_security := global_security, chunks := [] }

def allowedMethods : List String := ["get", "post", "put", "delete", "patch"]

/-- Inner loop of `_extract_endpoints` over one path's method map. -/
def methodOps (path : String) (mitems : List (String × PyVal)) :
    List (String × String × PyVal) :=
  mitems.filterMap (fun mv =>
    if pyLower mv.1 ∈ allowedMethods then some (pyLower mv.1, path, mv.2) else Option.none)

def endpointsLoop : List (String × PyVal) → Except PyErr (List (String × String × PyVal))
  | [] => .ok []
  | (path, methods) :: rest => do
    let mitems ← pyItems methods
    let restOps ← endpointsLoop rest
    .ok (methodOps path mitems ++ restOps)

/-- `SwaggerChunker._extract_endpoints`. -/
def extract_endpoints (swagger : PyVal) : Except PyErr (List (String × String × PyVal)) := do
  let paths ← pyGet swagger "paths" (.dict [])
  let pitems ← pyItems paths
  endpointsLoop pitems

/-- Sequential fallible mapping (the Python `for` loops that build a list and
propagate the first raised exception). -/
def mapME {σ β γ : Type} (f : β → Except σ γ) : List β → Except σ (List γ)
  | [] => .ok []
  | x :: xs => do
    let y ← f x
    let ys ← mapME f xs
    .ok (y :: ys)

/-- One resolved parameter record of `_extract_parameters` (a Python dict
whose insertion order is name, in, required, type, description). -/
def paramRecord (swagger : PyVal) (param : PyVal) : Except PyErr PyVal := do
  let hasRef ← pyContains param "$ref"
  let param ← if hasRef then do
      let r ← pySubscript param "$ref"
      resolveRefVal swagger r
    else pure param
  let nameV ← pyGet param "name" .none
  let inV ← pyGet param "in" .none
  let reqV ← pyGet param "required" (.bool false)
  let schemaV ← pyGet param "schema" (.dict [])
  let typeV ← pyGet schemaV "type" (.str "string")
  let descV ← pyGet param "description" (.str "")
  .ok (.dict [("name", nameV), ("in", inV), ("required", reqV),
              ("type", typeV), ("description", descV)])

/-- `SwaggerChunker._extract_parameters`. -/
def extract_parameters (swagger op : PyVal) : Except PyErr PyVal := do
  let params ← pyGet op "parameters" (.list [])
  let items ← pyIter params
  let resolved ← mapME (paramRecord swagger) items
  .ok (.list resolved)

/-- Loop of `_extract_request_body` over `content.items()`: the first media
object with a truthy schema wins; `{"$ref": ...}` is resolved. -/
def requestBodyLoop (swagger : PyVal) : List (String × PyVal) → Except PyErr (Option PyVal)
  | [] => .ok Option.none
  | (content_type, media_obj) :: rest => do
    let schema ← pyGet media_obj "schema" .none
    if pyTruthy schema then do
      let hasRef ← pyContains schema "$ref"
      let schema ← if hasRef then do
          let r ← pySubscript schema "$ref"
          resolveRefVal swagger r
        else pure schema
      .ok (some (.dict [("content_type", .str content_type), ("schema", schema)]))
    else requestBodyLoop swagger rest

/-- `SwaggerChunker._extract_request_body`. -/
def extract_request_body (swagger op : PyVal) : Except PyErr (Option PyVal) := do
  let body ← pyGet op "requestBody" (.dict [])
  let content ← pyGet body "content" (.dict [])
  let citems ← pyItems content
  requestBodyLoop swagger citems

/-- Inner loop of `_extract_responses` over one response's `content.items()`:
each media object overwrites `output[status_code]` (the last one wins). -/
def responseMediaLoop (swagger : PyVal) (status_code : String) (resp : PyVal)
    (output : List (String × PyVal)) :
    List (String × PyVal) → Except PyErr (List (String × PyVal))
  | [] => .ok output
  | (_, media_obj) :: rest => do
    let schema ← pyGet media_obj "schema" (.dict [])
    let hasRef ← pyContains schema "$ref"
    let schema ← if hasRef then do
        let r ← pySubscript schema "$ref"
        resolveRefVal swagger r
      else pure schema
    let descV ← pyGet resp "description" (.str "")
    responseMediaLoop swagger status_code resp
      (dictSet output status_code (.dict [("description", descV), ("schema", schema)])) rest

def responsesLoop (swagger : PyVal) (output : List (String × PyVal)) :
    List (String × PyVal) → Except PyErr (List (String × PyVal))
  | [] => .ok output
  | (status_code, resp) :: rest => do
    let content ← pyGet resp "content" (.dict [])
    let citems ← pyItems content
    let output ← responseMediaLoop swagger status_code resp output citems
    responsesLoop swagger output rest

/-- `SwaggerChunker._extract_responses`. -/
def extract_responses (swagger op : PyVal) : Except PyErr PyVal := do
  let resps ← pyGet op "responses" (.dict [])
  let ritems ← pyItems resps
  let output ← responsesLoop swagger [] ritems
  .ok (.dict output)

/-- `SwaggerChunker._extract_security`: collects the keys of every scheme
object of the effective security list. -/
def extract_security (global_security : PyVal) (op : PyVal) : Except PyErr (List String) := do
  let schemes ← pyGet op "security" global_security
  let sitems ← pyIter schemes
  let keyLists ← mapME pyKeys sitems
  .ok keyLists.flatten

/-- The composite text block of one operation (the `base_text` of
`extract_chunks` exactly as concatenated by the f-strings; Python renders the
interpolated containers with `repr`). -/
def baseText (method path : String) (summary : PyVal) (parameters : PyVal)
    (request_body : Option PyVal) (responses : PyVal) (security : List String) : String :=
  let head := pyUpper method ++ " " ++ path ++ "\n\n" ++ pyStr summary ++
              "\n\nParameters:\n" ++ pyStr parameters ++ "\n\n"
  let withBody := match request_body with
    | some rb => head ++ "Request Body:\n" ++ pyStr rb ++ "\n\n"
    | Option.none => head
  withBody ++ "Responses:\n" ++ pyStr responses ++ "\n\nSecurity: " ++
    pyStr (.list (security.map (fun k => .str k)))

/-- The body of the `extract_chunks` loop for one `(method, path, operation)`
triple: builds the composite text and the one emitted chunk. -/
def opChunk (swagger : PyVal) (global_security : PyVal) (source_file : String)
    (ep : String × String × PyVal) : Except PyErr Chunk := do
  let method := ep.1
  let path := ep.2.1
  let operation := ep.2.2
  let operation_id ← pyGet operation "operationId"
    (.str (method ++ "_" ++ pyReplaceChar path '/' '_'))
  let summary ← pyGet operation "summary" (.str "")
  let parameters ← extract_parameters swagger operation
  let request_body ← extract_request_body swagger operation
  let responses ← extract_responses swagger operation
  let security ← extract_security global_security operation
  let base_text := baseText method path summary parameters request_body responses security
  .ok { id := generate_chunk_id base_text
        type := ChunkType_SWAGGER
        text := pyStrip base_text
        metadata := [("chunk_type", .str ChunkType_SWAGGER),
                     ("chunk_origin", .str ChunkType_SWAGGER),
                     ("source_file", .str source_file),
                     ("method", .str method),
                     ("path", .str path),
                     ("operation_id", operation_id)] }

/-- `SwaggerChunker.extract_chunks`: appends one chunk per extracted endpoint
to `self.chunks` and returns `self.chunks` (so the accumulated list). -/
def extract_chunks (c : Chunker) : Except PyErr (Chunker × List Chunk) := do
  let eps ← extract_endpoints c.swagger
  let newChunks ← mapME (opChunk c.swagger c.global_security c.source_file) eps
  let allChunks := c.chunks ++ newChunks
  .ok ({ c with chunks := allChunks }, allChunks)

/-- One whole extraction run: construct a fresh `SwaggerChunker` on the
document and call `extract_chunks` once. -/
def extractChunksFresh (doc : PyVal) (source_file : String) : Except PyErr (List Chunk) := do
  let c ← SwaggerChunker_init doc source_file
  let (_, cs) ← extract_chunks c
  .ok cs

/-! ## `EmbeddingCache` (src/backend/embeddings/embedding_cache.py)

Embedding vectors are `List α`: the float elements are never inspected by the
core, only stored, compared for presence and returned, so the element type
stays abstract. -/

def lookupA {β : Type} : List (String × β) → String → Option β
  | [], _ => Option.none
  | (k, v) :: rest, key => if k = key then some v else lookupA rest key

/-- Python `d[k] = v` on a string-keyed dict. -/
def setA {β : Type} : List (String × β) → String → β → List (String × β)
  | [], key, v => [(key, v)]
  | (k, w) :: rest, key, v =>
    if k = key then (k, v) :: rest else (k, w) :: setA rest key v

/-- `EmbeddingCache._compute_hash`: SHA-256 hex digest of the canonical JSON
serialisation of the normalized (stripped text, metadata) pair; an absent or
empty metadata argument normalizes to the empty dict (`metadata or {}`). -/
def hashPayload (text : String) (metadata : List (String × PyVal)) : String :=
  jsonDumps (.dict [("text", .str (pyStrip text)), ("metadata", .dict metadata)])

def compute_hash (text : String) (metadata : List (String × PyVal)) : String :=
  sha256hex (hashPayload text metadata)

/-- Outcome alphabet of reading the persisted `index.json` through the file
lock: the file may be absent, unreadable (an I/O error the constructor does
not catch), not parseable as JSON or the lock may time out (both caught:
`except (json.JSONDecodeError, TimeoutError)`), or hold a stored index. -/
inductive DiskFile (α : Type) where
  | absent
  | unreadable
  | malformed
  | stored (entries : List (String × List α))

/-- `EmbeddingCache._load_index`. -/
def load_index {α : Type} : DiskFile α → Except PyErr (List (String × List α))
  | .absent => .ok []
  | .unreadable => .error (.osError "could not read index file")
  | .malformed => .ok []
  | .stored es => .ok es

structure Cache (α : Type) where
  entries : List (String × List α)
  disk : DiskFile α

/-- `EmbeddingCache.__init__` on a given persisted state. -/
def EmbeddingCache_init {α : Type} (d : DiskFile α) : Except PyErr (Cache α) := do
  let es ← load_index d
  .ok ⟨es, d⟩

/-- `EmbeddingCache.get`. -/
def Cache.get {α : Type} (c : Cache α) (text : String)
    (metadata : List (String × PyVal)) : Option (List α) :=
  lookupA c.entries (compute_hash text metadata)

/-- `EmbeddingCache.add`: insert-or-overwrite in the in-memory dict, then
`_save_index` rewrites the whole persisted index. -/
def Cache.add {α : Type} (c : Cache α) (text : String) (embedding : List α)
    (metadata : List (String × PyVal)) : Cache α :=
  let entries := setA c.entries (compute_hash text metadata) embedding
  ⟨entries, .stored entries⟩

/-- `EmbeddingCache.size`. -/
def Cache.size {α : Type} (c : Cache α) : Nat := c.entries.length

/-- `EmbeddingCache.clear`: empties the dict and unlinks the index file. -/
def Cache.clear {α : Type} (_ : Cache α) : Cache α := ⟨[], .absent⟩

/-! ## `EmbeddingEngine.embed_texts` (src/backend/embeddings/embedding_engine.py) -/

/-- `[str(member) for member in ChunkType]`: `str()` of a `(str, Enum)` mixin
member is `"ClassName.MEMBER"`, not the member's value, so this is the literal
list the membership test of `embed_texts` runs against. -/
def ChunkType_values : List String :=
  ["ChunkType.SWAGGER", "ChunkType.POSTMAN", "ChunkType.TEXT",
   "ChunkType.ENDPOINT_DESCRIPTION", "ChunkType.PARAMETER",
   "ChunkType.REQUEST_BODY_SCHEMA", "ChunkType.RESPONSE_SCHEMA",
   "ChunkType.ENUM_TEST_CASE", "ChunkType.BOOLEAN_FLAG_TEST_CASE",
   "ChunkType.ERROR_CODE_CASE"]

/-- An incoming chunk dict: the `"id"`, `"type"`, `"text"` keys may be
absent.  (String-valued fields; the verified properties only involve string
payloads.) -/
structure RawChunk where
  id : Option String
  type : Option String
  text : Option String

/-- A chunk after the validation loop, keys all present, type coerced. -/
structure VChunk where
  id : String
  type : String
  text : String

/-- A chunk with its `"embedding"` field attached. -/
structure EnrichedChunk (α : Type) where
  id : String
  type : String
  text : String
  embedding : List α

/-- The validation loop of `embed_texts`: chunks missing a key are dropped
with a warning; a `type` outside `ChunkType.values()` is coerced to
`ChunkType.TEXT`. -/
def validateChunks (chunks : List RawChunk) : List VChunk :=
  chunks.filterMap (fun ch =>
    match ch.id, ch.type, ch.text with
    | some i, some t, some x =>
      some ⟨i, if t ∈ ChunkType_values then t else ChunkType_TEXT, x⟩
    | _, _, _ => Option.none)

/-- Cache-hit test of the split loop: `cached = self.cache.get(text,
metadata={"type": type}); if cached:` — a hit needs a present and non-empty
(truthy) vector. -/
def isHit {α : Type} (c : Cache α) (v : VChunk) : Bool :=
  match c.get v.text [("type", .str v.type)] with
  | some (_ :: _) => true
  | _ => false

def hitVector {α : Type} (c : Cache α) (v : VChunk) : List α :=
  (c.get v.text [("type", .str v.type)]).getD []

/-- The embedding engine state the claims quantify over: the cache and the
`SentenceTransformer.encode` collaborator (an ordered batch text-to-vector
map; its contract, equal output length, is a hypothesis where needed). -/
structure Engine (α : Type) where
  cache : Cache α
  encode : List String → List (List α)

/-- `EmbeddingEngine.embed_texts`: validate, split into cache hits (enriched
immediately, in order) and misses, then encode the misses as one batch,
appending them after the hits while writing each vector back through
`cache.add`.  Python's `embeddings[i]` indexing raises `IndexError` if the
encode collaborator returns fewer vectors than texts (modelled as a
whole-call failure; every verified property concerns runs where the
collaborator honours its equal-length contract). -/
def embed_texts {α : Type} (e : Engine α) (chunks : List RawChunk) :
    Except PyErr (Engine α × List (EnrichedChunk α)) :=
  let validated := validateChunks chunks
  let hits := validated.filter (fun v => isHit e.cache v)
  let to_embed := validated.filter (fun v => !isHit e.cache v)
  let enriched_hits := hits.map (fun v =>
    EnrichedChunk.mk v.id v.type v.text (hitVector e.cache v))
  if to_embed.isEmpty then .ok (e, enriched_hits)
  else
    let embeddings := e.encode (to_embed.map (fun v => v.text))
    if embeddings.length < to_embed.length then
      .error (.indexError "list index out of range")
    else
      let pairs := to_embed.zip embeddings
      let enriched_new := pairs.map (fun pv =>
        EnrichedChunk.mk pv.1.id pv.1.type pv.1.text pv.2)
      let cache' := pairs.foldl (fun c pv =>
        c.add pv.1.text pv.2 [("type", .str pv.1.type)]) e.cache
      .ok ({ e with cache := cache' }, enriched_hits ++ enriched_new)

/-! ## `VectorStore.add_documents` (src/backend/embeddings/vector_store.py)

`uuid4()` draws are modelled by an explicit stream `RNG` threaded through the
call; the ChromaDB collection handles are modelled by the canonical client
state (name-indexed record lists) plus the names cached in
`self._collections`. -/

structure RNG where
  seq : Nat → String
  count : Nat

/-- `[str(uuid4()) for _ in documents]`. -/
def RNG.take (r : RNG) (n : Nat) : List String × RNG :=
  ((List.range n).map (fun i => r.seq (r.count + i)), ⟨r.seq, r.count + n⟩)

structure VRecord (α : Type) where
  id : String
  document : String
  embedding : List α
  metadata : List (String × String)

structure VStore (α : Type) where
  client : List (String × List (VRecord α))
  loaded : List String

/-- `VectorStore._load_or_create_collection`: cached handles are reused; an
uncached name is created-or-loaded on the client and cached. -/
def load_or_create {α : Type} (s : VStore α) (name : String) : VStore α :=
  if name ∈ s.loaded then s
  else { client := if (lookupA s.client name).isSome then s.client
                   else s.client ++ [(name, [])],
         loaded := s.loaded ++ [name] }

/-- Metadata enrichment of one document: the dict literal inserts the four
default fields first (`.get` with defaults; the `hash_id` default consumes a
fresh uuid), then `**base_meta` overwrites with every caller pair. -/
def enrichMeta (base : List (String × String)) (fresh : String) : List (String × String) :=
  let d0 := [("chunk_type", (lookupA base "chunk_type").getD "text"),
             ("chunk_origin", (lookupA base "chunk_origin").getD "unknown"),
             ("source_file", (lookupA base "source_file").getD "unknown"),
             ("hash_id", (lookupA base "hash_id").getD fresh)]
  base.foldl (fun d kv => setA d kv.1 kv.2) d0

/-- The enrichment loop over `enumerate(documents)`: `str(uuid4())` is an
eagerly evaluated default argument, so one uuid is drawn per document whether
or not `hash_id` is present. -/
def enrichAll (metadatas : List (List (String × String))) :
    Nat → Nat → RNG → List (List (String × String)) × RNG
  | _, 0, r => ([], r)
  | i, n + 1, r =>
    let fresh := r.seq r.count
    let m := enrichMeta (metadatas.getD i []) fresh
    let (rest, r') := enrichAll metadatas (i + 1) n ⟨r.seq, r.count + 1⟩
    (m :: rest, r')

def zipRecords {α : Type} (documents : List String) (embeddings : List (List α))
    (metadatas : List (List (String × String))) (ids : List String) : List (VRecord α) :=
  ((documents.zip embeddings).zip (metadatas.zip ids)).map
    (fun p => ⟨p.2.2, p.1.1, p.1.2, p.2.1⟩)

/-- `collection.add(...)`: append the records to the collection's store. -/
def appendRecords {α : Type} (s : VStore α) (name : String)
    (records : List (VRecord α)) : VStore α :=
  { s with client := setA s.client name ((lookupA s.client name).getD [] ++ records) }

/-- `VectorStore.add_documents`.  The result keeps the state reached when an
exception is raised (Python does not roll back), so "writes nothing" is the
provable statement that the store is returned unchanged. -/
def add_documents {α : Type} (s : VStore α) (r : RNG) (collection_name : String)
    (documents : List String) (embeddings : List (List α))
    (metadatas : List (List (String × String))) (ids : List String) :
    VStore α × RNG × Except PyErr Unit :=
  if documents.length ≠ embeddings.length then
    (s, r, .error (.valueError "Mismatch: documents and embeddings count."))
  else
    let idsR := if ids.isEmpty then r.take documents.length else (ids, r)
    if idsR.1.length ≠ documents.length then
      (s, idsR.2, .error (.valueError "Mismatch: documents and IDs count."))
    else
      let emsR := enrichAll metadatas 0 documents.length idsR.2
      let s1 := load_or_create s collection_name
      let s2 := appendRecords s1 collection_name
        (zipRecords documents embeddings emsR.1 idsR.1)
      (s2, emsR.2, .ok ())

/-! ## Association-list lemmas -/

theorem lookupA_setA_self {β : Type} (l : List (String × β)) (k : String) (v : β) :
    lookupA (setA l k v) k = some v := by
  induction l with
  | nil => simp [setA, lookupA]
  | cons p rest ih =>
    obtain ⟨pk, pv⟩ := p
    by_cases h : pk = k
    · simp [setA, h, lookupA]
    · simp [setA, h, lookupA, ih]

theorem setA_length_of_lookup_some {β : Type} (l : List (String × β)) (k : String)
    (v w : β) (h : lookupA l k = some w) : (setA l k v).length = l.length := by
  induction l with
  | nil => simp [lookupA] at h
  | cons p rest ih =>
    obtain ⟨pk, pv⟩ := p
    by_cases hk : pk = k
    · simp [setA, hk]
    · simp [lookupA, hk] at h
      simp [setA, hk, ih h]

theorem lookupA_append_right_of_none {β : Type} (l : List (String × β)) (k : String)
    (x : β) (h : lookupA l k = Option.none) : lookupA (l ++ [(k, x)]) k = some x := by
  induction l with
  | nil => simp [lookupA]
  | cons p rest ih =>
    obtain ⟨pk, pv⟩ := p
    by_cases hk : pk = k
    · simp [lookupA, hk] at h
    · simp [lookupA, hk] at h ⊢
      exact ih h

/-! ## Claims C7, C8, C4, C10 -/

/-- C7: a cache `put` (`EmbeddingCache.add`) followed by a `get` with the
identical text and metadata returns exactly the stored vector, and a second
`put` with the same text, metadata and vector leaves `size()` unchanged. -/
theorem C7_cache_put_get_idempotent {α : Type} (c : Cache α) (text : String)
    (metadata : List (String × PyVal)) (vec : List α) :
    (c.add text vec metadata).get text metadata = some vec ∧
    ((c.add text vec metadata).add text vec metadata).size = (c.add text vec metadata).size := by
  refine ⟨lookupA_setA_self .., ?_⟩
  exact setA_length_of_lookup_some _ _ _ _ (lookupA_setA_self ..)

/-- C8 counterexample: at the concrete corrupted persisted state "index file
exists but is unreadable" (an I/O error, which `_load_index` does not catch:
only `json.JSONDecodeError` and `TimeoutError` are), cache construction
raises `OSError` instead of succeeding with `size() == 0` as the claim
states. -/
theorem C8_counterexample :
    EmbeddingCache_init (DiskFile.unreadable : DiskFile Nat) =
      .error (.osError "could not read index file") := rfl

/-- C8 amended: construction on an absent or unparseable (invalid-JSON or
lock-timeout) index file succeeds with `size() == 0`; an unreadable file
makes construction raise the uncaught `OSError` instead. -/
theorem C8_amended_cold_start {α : Type} :
    (EmbeddingCache_init (DiskFile.malformed : DiskFile α)).map Cache.size = .ok 0 ∧
    (EmbeddingCache_init (DiskFile.absent : DiskFile α)).map Cache.size = .ok 0 ∧
    EmbeddingCache_init (DiskFile.unreadable : DiskFile α) =
      .error (.osError "could not read index file") :=
  ⟨rfl, rfl, rfl⟩

/-- C4: a vector-store `add` whose documents and embeddings lists have
different lengths raises the contract `ValueError` at once and returns the
store (and the uuid stream) unchanged: no collection is created, loaded or
modified. -/
theorem C4_add_documents_mismatch_writes_nothing {α : Type} (s : VStore α) (r : RNG)
    (collection_name : String) (documents : List String) (embeddings : List (List α))
    (metadatas : List (List (String × String))) (ids : List String)
    (h : documents.length ≠ embeddings.length) :
    add_documents s r collection_name documents embeddings metadatas ids =
      (s, r, .error (.valueError "Mismatch: documents and embeddings count.")) := by
  unfold add_documents
  rw [if_pos h]

/-- C4 witness: the specification's concrete scenario, 3 documents and 2
embeddings. -/
theorem C4_witness :
    (["d1", "d2", "d3"] : List String).length ≠ ([[1], [2]] : List (List Nat)).length ∧
    add_documents (⟨[], []⟩ : VStore Nat) ⟨fun _ => "u", 0⟩ "swagger_embeddings"
      ["d1", "d2", "d3"] [[1], [2]] [] [] =
      (⟨[], []⟩, ⟨fun _ => "u", 0⟩,
        .error (.valueError "Mismatch: documents and embeddings count.")) :=
  ⟨by decide,
   C4_add_documents_mismatch_writes_nothing _ _ _ _ _ _ _ (by decide)⟩

theorem enrichAll_length (metadatas : List (List (String × String))) :
    ∀ (n i : Nat) (r : RNG), (enrichAll metadatas i n r).1.length = n := by
  intro n
  induction n with
  | zero => intro i r; simp [enrichAll]
  | succ m ih => intro i r; simp [enrichAll, ih]

theorem zipRecords_map_id {α : Type} :
    ∀ (ds : List String) (es : List (List α)) (ms : List (List (String × String)))
      (ids : List String), es.length = ds.length → ms.length = ds.length →
      ids.length = ds.length →
      (zipRecords ds es ms ids).map (fun rec => rec.id) = ids := by
  intro ds
  induction ds with
  | nil =>
    intro es ms ids he hm hi
    cases ids with
    | nil => simp [zipRecords]
    | cons a t => simp at hi
  | cons d dt ih =>
    intro es ms ids he hm hi
    cases es with
    | nil => simp at he
    | cons e et =>
      cases ms with
      | nil => simp at hm
      | cons m mt =>
        cases ids with
        | nil => simp at hi
        | cons i it =>
          simp [zipRecords] at ih ⊢
          exact ih et mt it (by simpa using he) (by simpa using hm) (by simpa using hi)

theorem load_or_create_lookup_getD {α : Type} (s : VStore α) (name : String) :
    (lookupA (load_or_create s name).client name).getD [] =
      (lookupA s.client name).getD [] := by
  unfold load_or_create
  by_cases hmem : name ∈ s.loaded
  · rw [if_pos hmem]
  · rw [if_neg hmem]
    by_cases hsome : (lookupA s.client name).isSome
    · simp [hsome]
    · simp only []
      rw [if_neg hsome]
      have hnone : lookupA s.client name = Option.none := by
        cases h : lookupA s.client name
        · rfl
        · rw [h] at hsome; simp at hsome
      rw [lookupA_append_right_of_none _ _ _ hnone, hnone]
      rfl

/-- C10: with matching documents/embeddings, a caller-supplied non-empty ids
list of a different length makes `add_documents` raise before any write (the
store and the uuid stream come back unchanged), while an empty ids list is
falsy in `ids or [...]` and is replaced by freshly generated uuids, which
become the ids of the records written to the collection. -/
theorem C10_add_documents_ids_contract {α : Type} (s : VStore α) (r : RNG)
    (name : String) (documents : List String) (embeddings : List (List α))
    (metadatas : List (List (String × String))) (ids : List String)
    (hde : documents.length = embeddings.length) :
    (ids ≠ [] → ids.length ≠ documents.length →
      add_documents s r name documents embeddings metadatas ids =
        (s, r, .error (.valueError "Mismatch: documents and IDs count."))) ∧
    (ids = [] →
      ∃ s' r' recs,
        add_documents s r name documents embeddings metadatas ids = (s', r', .ok ()) ∧
        lookupA s'.client name = some ((lookupA s.client name).getD [] ++ recs) ∧
        recs.map (fun rec => rec.id) = (r.take documents.length).1) := by
  constructor
  · intro hne hlen
    unfold add_documents
    rw [if_neg (by omega)]
    have hemp : ids.isEmpty = false := by
      cases ids
      · exact absurd rfl hne
      · rfl
    simp only [hemp, if_false, Bool.false_eq_true]
    rw [if_pos hlen]
  · intro hid
    subst hid
    unfold add_documents
    rw [if_neg (by omega)]
    have hemp : (([] : List String)).isEmpty = true := rfl
    simp only [hemp, if_true]
    have hlen : (r.take documents.length).1.length = documents.length := by
      simp [RNG.take]
    rw [if_neg (by omega)]
    refine ⟨_, _, zipRecords documents embeddings
      (enrichAll metadatas 0 documents.length (r.take documents.length).2).1
      (r.take documents.length).1, rfl, ?_, ?_⟩
    · unfold appendRecords
      simp only []
      rw [lookupA_setA_self, load_or_create_lookup_getD]
    · exact zipRecords_map_id _ _ _ _ hde.symm
        (enrichAll_length _ _ _ _) hlen

/-- C10 witness: 2 documents and embeddings with 1 caller id errors and
leaves the store untouched; an empty ids list succeeds and writes records
carrying the two generated uuids. -/
theorem C10_witness :
    (add_documents (⟨[], []⟩ : VStore Nat) ⟨fun n => toString n, 0⟩ "c"
        ["d1", "d2"] [[1], [2]] [] ["only-one"] =
      (⟨[], []⟩, ⟨fun n => toString n, 0⟩,
        .error (.valueError "Mismatch: documents and IDs count."))) ∧
    (∃ s' r' recs,
      add_documents (⟨[], []⟩ : VStore Nat) ⟨fun n => toString n, 0⟩ "c"
          ["d1", "d2"] [[1], [2]] [] [] = (s', r', .ok ()) ∧
      lookupA s'.client "c" = some ((lookupA ([] : List (String × List (VRecord Nat))) "c").getD [] ++ recs) ∧
      recs.map (fun rec => rec.id) = ((⟨fun n => toString n, 0⟩ : RNG).take
        (["d1", "d2"] : List String).length).1) :=
  ⟨(C10_add_documents_ids_contract _ _ _ _ _ _ _ (by decide)).1 (by decide) (by decide),
   (C10_add_documents_ids_contract _ _ _ _ _ _ _ (by decide)).2 rfl⟩

/-! ## Claims C3 and C9 (embedding step) -/

theorem map_fst_comp_zip {β γ δ : Type} (f : β → δ) :
    ∀ (l : List β) (es : List γ), l.length ≤ es.length →
      (l.zip es).map (fun p => f p.1) = l.map f := by
  intro l
  induction l with
  | nil => simp
  | cons a t ih =>
    intro es h
    cases es with
    | nil => simp at h
    | cons e et =>
      simp only [List.zip_cons_cons, List.map]
      have ht := ih et (by simpa using h)
      simp only [List.zip] at ht
      rw [ht]

/-- C3 amended: `embed_texts` returns the cache hits first (enriched in the
split loop) and the freshly embedded cache misses after them, each class in
input order; the whole input order is preserved only when the hits and
misses do not interleave (all-hit or all-miss inputs). -/
theorem C3_amended_hits_before_misses {α : Type} (e : Engine α)
    (chunks : List RawChunk) (e' : Engine α) (out : List (EnrichedChunk α))
    (h : embed_texts e chunks = .ok (e', out)) :
    out.map (fun c => c.id) =
      ((validateChunks chunks).filter (fun v => isHit e.cache v)).map (fun v => v.id) ++
      ((validateChunks chunks).filter (fun v => !isHit e.cache v)).map (fun v => v.id) := by
  unfold embed_texts at h
  by_cases hemp : ((validateChunks chunks).filter (fun v => !isHit e.cache v)).isEmpty
  · rw [if_pos hemp] at h
    simp only [Except.ok.injEq, Prod.mk.injEq] at h
    obtain ⟨-, hout⟩ := h
    subst hout
    rw [List.isEmpty_iff.mp hemp]
    simp [List.map_map, Function.comp]
  · rw [if_neg hemp] at h
    by_cases hlen : (e.encode (((validateChunks chunks).filter
        (fun v => !isHit e.cache v)).map (fun v => v.text))).length <
        ((validateChunks chunks).filter (fun v => !isHit e.cache v)).length
    · rw [if_pos hlen] at h
      exact absurd h (by simp)
    · rw [if_neg hlen] at h
      simp only [Except.ok.injEq, Prod.mk.injEq] at h
      obtain ⟨-, hout⟩ := h
      subst hout
      rw [List.map_append]
      congr 1
      · simp [List.map_map, Function.comp]
      · rw [List.map_map]
        have hge : ((validateChunks chunks).filter (fun v => !isHit e.cache v)).length ≤
            (e.encode (((validateChunks chunks).filter
              (fun v => !isHit e.cache v)).map (fun v => v.text))).length := by omega
        have := map_fst_comp_zip (fun v : VChunk => v.id)
          ((validateChunks chunks).filter (fun v => !isHit e.cache v))
          (e.encode (((validateChunks chunks).filter
            (fun v => !isHit e.cache v)).map (fun v => v.text))) hge
        simpa [Function.comp] using this

def keyB : String := "ea38214d099c71c4fc9d5b5e7aa55754e4a41e1b84093e147557a5942c019541"

def cacheC3 : Cache Nat := ⟨[(keyB, [5])], .stored [(keyB, [5])]⟩

def engC3 : Engine Nat := ⟨cacheC3, fun ts => ts.map (fun _ => [7])⟩

def chunksC3 : List RawChunk :=
  [⟨some "a", some "free_text", some "A"⟩, ⟨some "b", some "free_text", some "B"⟩]

/-- C3 counterexample: with the chunk for text `"B"` already cached and the
chunk for text `"A"` uncached, `embed_texts` on the input `[A, B]` returns
the chunks in the order `[B, A]` — extraction order is not preserved through
embedding when cache hits and misses interleave. -/
theorem C3_counterexample :
    (embed_texts engC3 chunksC3).map (fun p => p.2.map (fun c => c.id)) = .ok ["b", "a"] ∧
    (["b", "a"] : List String) ≠ ["a", "b"] :=
  ⟨rfl, by decide⟩

/-- C3 amended witness: an all-hit input comes back in input order. -/
theorem C3_amended_witness :
    embed_texts engC3 [⟨some "b", some "free_text", some "B"⟩] =
      .ok (engC3, [⟨"b", "free_text", "B", [5]⟩]) ∧
    ([⟨"b", "free_text", "B", [5]⟩] : List (EnrichedChunk Nat)).map (fun c => c.id) =
      ((validateChunks [⟨some "b", some "free_text", some "B"⟩]).filter
        (fun v => isHit engC3.cache v)).map (fun v => v.id) ++
      ((validateChunks [⟨some "b", some "free_text", some "B"⟩]).filter
        (fun v => !isHit engC3.cache v)).map (fun v => v.id) :=
  ⟨rfl, C3_amended_hits_before_misses engC3 _ _ _ rfl⟩

/-- C9: a chunk carrying id, type and text whose type is outside
`ChunkType.values()` is not rejected: `embed_texts` coerces its type to the
generic `ChunkType.TEXT` (string content `"free_text"`) and still embeds and
returns it, with some embedding vector attached. -/
theorem C9_unknown_type_coerced_and_embedded {α : Type} (e : Engine α)
    (ch : RawChunk) (i t x : String)
    (hid : ch.id = some i) (hty : ch.type = some t) (htx : ch.text = some x)
    (hunk : t ∉ ChunkType_values)
    (henc : ∀ ts, (e.encode ts).length = ts.length) :
    ∃ e' v, embed_texts e [ch] = .ok (e', [⟨i, ChunkType_TEXT, x, v⟩]) := by
  obtain ⟨ci, ct, cx⟩ := ch
  simp only at hid hty htx
  subst hid hty htx
  have hval : validateChunks [⟨some i, some t, some x⟩] = [⟨i, ChunkType_TEXT, x⟩] := by
    simp [validateChunks, hunk]
  unfold embed_texts
  rw [hval]
  by_cases hhit : isHit e.cache ⟨i, ChunkType_TEXT, x⟩
  · simp only [List.filter, hhit, Bool.not_true]
    exact ⟨e, hitVector e.cache ⟨i, ChunkType_TEXT, x⟩, rfl⟩
  · have hhit' : isHit e.cache ⟨i, ChunkType_TEXT, x⟩ = false := by
      simpa using hhit
    simp only [List.filter, hhit', Bool.not_false]
    have h1 : (e.encode [x]).length = 1 := by
      simpa using henc [x]
    match hv : e.encode [x] with
    | [] => rw [hv] at h1; simp at h1
    | v0 :: v1 :: vt => rw [hv] at h1; simp at h1
    | [v0] =>
      exact ⟨⟨e.cache.add x v0 [("type", PyVal.str ChunkType_TEXT)], e.encode⟩, v0, rfl⟩

/-! ## Claims C1 and C2 (extraction) -/

theorem exceptBind_ok {σ β γ : Type} {x : Except σ β} {f : β → Except σ γ} {c : γ}
    (h : x >>= f = .ok c) : ∃ b, x = .ok b ∧ f b = .ok c := by
  cases x with
  | error e => exact absurd h (by simp [Bind.bind, Except.bind])
  | ok b => exact ⟨b, rfl, by simpa [Bind.bind, Except.bind] using h⟩

theorem mapME_ok_forall₂ {σ β γ : Type} (f : β → Except σ γ) :
    ∀ (l : List β) (l' : List γ), mapME f l = .ok l' →
      List.Forall₂ (fun a b => f a = .ok b) l l' := by
  intro l
  induction l with
  | nil =>
    intro l' h
    unfold mapME at h
    cases h
    exact .nil
  | cons a t ih =>
    intro l' h
    unfold mapME at h
    obtain ⟨y, hy, h2⟩ := exceptBind_ok h
    obtain ⟨ys, hys, h3⟩ := exceptBind_ok h2
    cases h3
    exact .cons hy (ih ys hys)

theorem forall₂_mem_right {β γ : Type} {R : β → γ → Prop} :
    ∀ {l : List β} {l' : List γ}, List.Forall₂ R l l' →
      ∀ c ∈ l', ∃ a ∈ l, R a c := by
  intro l l' h
  induction h with
  | nil => intro c hc; cases hc
  | cons hr _ ih =>
    intro c hc
    rcases hc with _ | hc
    · exact ⟨_, List.mem_cons_self .., hr⟩
    · obtain ⟨a, ha, hra⟩ := ih _ (by assumption)
      exact ⟨a, List.mem_cons_of_mem _ ha, hra⟩

theorem forall₂_imp_of_mem {β γ : Type} {R R' : β → γ → Prop} :
    ∀ {l : List β} {l' : List γ}, List.Forall₂ R l l' →
      (∀ a ∈ l, ∀ b, R a b → R' a b) → List.Forall₂ R' l l' := by
  intro l l' h
  induction h with
  | nil => intro _; exact .nil
  | cons hr _ ih =>
    intro himp
    exact .cons (himp _ (List.mem_cons_self ..) _ hr)
      (ih (fun a ha b hr' => himp a (List.mem_cons_of_mem _ ha) b hr'))

theorem endpointsLoop_methods :
    ∀ (pitems : List (String × PyVal)) (eps : List (String × String × PyVal)),
      endpointsLoop pitems = .ok eps → ∀ ep ∈ eps, ep.1 ∈ allowedMethods := by
  intro pitems
  induction pitems with
  | nil =>
    intro eps h
    unfold endpointsLoop at h
    cases h
    intro ep hep
    cases hep
  | cons p rest ih =>
    obtain ⟨ppath, pmethods⟩ := p
    intro eps h
    unfold endpointsLoop at h
    obtain ⟨mitems, hm, h2⟩ := exceptBind_ok h
    obtain ⟨restOps, hr, h3⟩ := exceptBind_ok h2
    cases h3
    intro ep hep
    rcases List.mem_append.mp hep with hin | hin
    · obtain ⟨mv, -, hmv⟩ := List.mem_filterMap.mp hin
      by_cases hc : pyLower mv.1 ∈ allowedMethods
      · rw [if_pos hc] at hmv
        cases hmv
        exact hc
      · rw [if_neg hc] at hmv
        cases hmv
    · exact ih restOps hr ep hin

theorem extract_endpoints_methods (swagger : PyVal) (eps : List (String × String × PyVal))
    (h : extract_endpoints swagger = .ok eps) : ∀ ep ∈ eps, ep.1 ∈ allowedMethods := by
  unfold extract_endpoints at h
  obtain ⟨paths, -, h2⟩ := exceptBind_ok h
  obtain ⟨pitems, -, h3⟩ := exceptBind_ok h2
  exact endpointsLoop_methods pitems eps h3

theorem pyStrip_eq_self (s : String)
    (h1 : ∀ c, s.data.head? = some c → isPySpace c = false)
    (h2 : ∀ c, s.data.getLast? = some c → isPySpace c = false) :
    pyStrip s = s := by
  obtain ⟨l⟩ := s
  simp only [pyStrip]
  congr 1
  cases l with
  | nil => simp
  | cons c t =>
    have hc : isPySpace c = false := h1 c rfl
    rw [List.dropWhile_cons, if_neg (by simp [hc])]
    cases hrev : (c :: t).reverse with
    | nil => exact absurd hrev (by simp)
    | cons d u =>
      have hd : isPySpace d = false := by
        apply h2
        rw [← List.head?_reverse, hrev]
        rfl
      rw [List.dropWhile_cons, if_neg (by simp [hd]), ← hrev, List.reverse_reverse]

theorem pyRepr_strList_getLast (xs : List PyVal) :
    (pyStr (.list xs)).data.getLast? = some ']' := by
  show (pyReprV (.list xs)).data.getLast? = some ']'
  rw [pyReprV]
  show (("[" ++ pyReprL xs) ++ "]").data.getLast? = some ']'
  rw [String.data_append]
  exact List.getLast?_concat _

theorem baseText_getLast (m p : String) (su pa : PyVal) (rb : Option PyVal)
    (rs : PyVal) (sec : List String) :
    (baseText m p su pa rb rs sec).data.getLast? = some ']' := by
  unfold baseText
  cases rb <;>
    simp only [String.data_append] <;>
    rw [List.getLast?_append_of_ne_nil _ (by
      have := pyRepr_strList_getLast (sec.map (fun k => PyVal.str k))
      intro hnil
      rw [hnil] at this
      cases this)] <;>
    exact pyRepr_strList_getLast _

theorem baseText_head (m p : String) (su pa : PyVal) (rb : Option PyVal)
    (rs : PyVal) (sec : List String) (hm : m ∈ allowedMethods) :
    ∀ c, (baseText m p su pa rb rs sec).data.head? = some c → isPySpace c = false := by
  have hstep : ∀ c0 rest, (pyUpper m).data = c0 :: rest → isPySpace c0 = false →
      ∀ c, (baseText m p su pa rb rs sec).data.head? = some c → isPySpace c = false := by
    intro c0 rest hdat hc0 c hc
    unfold baseText at hc
    cases rb <;>
      simp only [String.data_append] at hc <;>
      rw [List.head?_append_of_ne_nil _ (by simp [hdat]), List.head?_append_of_ne_nil _ (by simp [hdat]),
        List.head?_append_of_ne_nil _ (by simp [hdat])] at hc
    case none =>
      rw [List.head?_append_of_ne_nil _ (by simp [hdat]),
        List.head?_append_of_ne_nil _ (by simp [hdat]),
        List.head?_append_of_ne_nil _ (by simp [hdat]), hdat] at hc
      cases hc
      exact hc0
    case some rbv =>
      rw [List.head?_append_of_ne_nil _ (by simp [hdat]),
        List.head?_append_of_ne_nil _ (by simp [hdat]),
        List.head?_append_of_ne_nil _ (by simp [hdat]),
        List.head?_append_of_ne_nil _ (by simp [hdat]),
        List.head?_append_of_ne_nil _ (by simp [hdat]), hdat] at hc
      cases hc
      exact hc0
  simp only [allowedMethods, List.mem_cons, List.mem_singleton] at hm
  rcases hm with rfl | rfl | rfl | rfl | rfl | h
  · exact hstep 'G' ['E', 'T'] rfl (by decide)
  · exact hstep 'P' ['O', 'S', 'T'] rfl (by decide)
  · exact hstep 'P' ['U', 'T'] rfl (by decide)
  · exact hstep 'D' ['E', 'L', 'E', 'T', 'E'] rfl (by decide)
  · exact hstep 'P' ['A', 'T', 'C', 'H'] rfl (by decide)
  · cases h

theorem baseText_strip_noop (m p : String) (su pa : PyVal) (rb : Option PyVal)
    (rs : PyVal) (sec : List String) (hm : m ∈ allowedMethods) :
    pyStrip (baseText m p su pa rb rs sec) = baseText m p su pa rb rs sec := by
  refine pyStrip_eq_self _ (baseText_head m p su pa rb rs sec hm) ?_
  intro c hc
  rw [baseText_getLast] at hc
  cases hc
  rfl

theorem SwaggerChunker_init_ok (swagger : PyVal) (file : String) (ch : Chunker)
    (h : SwaggerChunker_init swagger file = .ok ch) :
    ch.swagger = swagger ∧ ch.chunks = [] := by
  unfold SwaggerChunker_init at h
  obtain ⟨a, -, h⟩ := exceptBind_ok h
  obtain ⟨b, -, h⟩ := exceptBind_ok h
  obtain ⟨c2, -, h⟩ := exceptBind_ok h
  obtain ⟨d2, -, h⟩ := exceptBind_ok h
  obtain ⟨e2, -, h⟩ := exceptBind_ok h
  cases h
  exact ⟨rfl, rfl⟩

theorem opChunk_ok_spec (swagger gsec : PyVal) (file : String)
    (ep : String × String × PyVal) (c : Chunk) (hm : ep.1 ∈ allowedMethods)
    (h : opChunk swagger gsec file ep = .ok c) :
    c.type = ChunkType_SWAGGER ∧
    c.id = strTake (sha256hex c.text) 16 ∧
    alookup c.metadata "method" = some (.str ep.1) ∧
    alookup c.metadata "path" = some (.str ep.2.1) ∧
    ∃ opId, pyGet ep.2.2 "operationId"
        (.str (ep.1 ++ "_" ++ pyReplaceChar ep.2.1 '/' '_')) = .ok opId ∧
      alookup c.metadata "operation_id" = some opId := by
  unfold opChunk at h
  obtain ⟨opId, hop, h⟩ := exceptBind_ok h
  obtain ⟨su, -, h⟩ := exceptBind_ok h
  obtain ⟨pa, -, h⟩ := exceptBind_ok h
  obtain ⟨rb, -, h⟩ := exceptBind_ok h
  obtain ⟨rs, -, h⟩ := exceptBind_ok h
  obtain ⟨sec, -, h⟩ := exceptBind_ok h
  cases h
  refine ⟨rfl, ?_, rfl, rfl, opId, hop, rfl⟩
  show generate_chunk_id (baseText ep.1 ep.2.1 su pa rb rs sec) =
    strTake (sha256hex (pyStrip (baseText ep.1 ep.2.1 su pa rb rs sec))) 16
  rw [baseText_strip_noop _ _ _ _ _ _ _ hm]
  rfl

/-- C1: extraction is deterministic — the embedded `extract_chunks` run is a
pure function of the document (the source draws no randomness, clock or
I/O for chunk content), so re-extracting an unchanged document gives the
identical chunk sequence; and each emitted chunk's `id` is exactly the first
16 hex characters of the SHA-256 digest of the chunk's composite `text`
(the hash is taken of `base_text`, whose `strip()` is the emitted text and is
a no-op because the text starts with the upper-cased method and ends with the
security list's closing bracket). -/
theorem C1_extraction_deterministic_content_addressed (doc : PyVal) (file : String)
    (cs : List Chunk) (h : extractChunksFresh doc file = .ok cs) :
    extractChunksFresh doc file = extractChunksFresh doc file ∧
    ∀ c ∈ cs, c.id = strTake (sha256hex c.text) 16 := by
  refine ⟨rfl, ?_⟩
  unfold extractChunksFresh at h
  obtain ⟨ch, hinit, h⟩ := exceptBind_ok h
  obtain ⟨pr, hex, h⟩ := exceptBind_ok h
  obtain ⟨hsw, hch0⟩ := SwaggerChunker_init_ok _ _ _ hinit
  obtain ⟨ch', cs'⟩ := pr
  simp only at h
  cases h
  unfold extract_chunks at hex
  obtain ⟨eps, heps, hex⟩ := exceptBind_ok hex
  obtain ⟨newChunks, hnew, hex⟩ := exceptBind_ok hex
  simp only [Except.ok.injEq, Prod.mk.injEq] at hex
  obtain ⟨-, hcs⟩ := hex
  subst hcs
  intro c hc
  have hf := mapME_ok_forall₂ _ _ _ hnew
  obtain ⟨ep, hep, hop⟩ := forall₂_mem_right hf c (by
    rw [hch0] at hc
    simpa using hc)
  have hmeth := extract_endpoints_methods _ _ (by rwa [hsw] at heps) ep hep
  exact (opChunk_ok_spec _ _ _ _ _ hmeth hop).2.1

/-- C2 amended: for every successfully extracted document the extractor emits
exactly one chunk per enumerated operation (the lists correspond pairwise, in
order), and that chunk's `type` is the legacy `ChunkType.SWAGGER` marker
`"swagger"` — not `"operation"` — while its metadata carries the operation's
method, path, and operation id (the stored `operationId` value, or the
deterministic `f"{method}_{path.replace('/', '_')}"` fallback when the key is
absent). -/
theorem C2_amended_one_swagger_chunk_per_operation (doc : PyVal) (file : String)
    (eps : List (String × String × PyVal)) (cs : List Chunk)
    (heps : extract_endpoints doc = .ok eps)
    (h : extractChunksFresh doc file = .ok cs) :
    List.Forall₂ (fun ep (c : Chunk) =>
      c.type = ChunkType_SWAGGER ∧
      alookup c.metadata "method" = some (.str ep.1) ∧
      alookup c.metadata "path" = some (.str ep.2.1) ∧
      ∃ opId, pyGet ep.2.2 "operationId"
          (.str (ep.1 ++ "_" ++ pyReplaceChar ep.2.1 '/' '_')) = .ok opId ∧
        alookup c.metadata "operation_id" = some opId) eps cs := by
  unfold extractChunksFresh at h
  obtain ⟨ch, hinit, h⟩ := exceptBind_ok h
  obtain ⟨pr, hex, h⟩ := exceptBind_ok h
  obtain ⟨hsw, hch0⟩ := SwaggerChunker_init_ok _ _ _ hinit
  obtain ⟨ch', cs'⟩ := pr
  simp only at h
  cases h
  unfold extract_chunks at hex
  obtain ⟨eps', heps', hex⟩ := exceptBind_ok hex
  obtain ⟨newChunks, hnew, hex⟩ := exceptBind_ok hex
  simp only [Except.ok.injEq, Prod.mk.injEq] at hex
  obtain ⟨-, hcs⟩ := hex
  subst hcs
  rw [hsw] at heps'
  rw [heps] at heps'
  cases heps'
  rw [hch0, List.nil_append]
  have hf := mapME_ok_forall₂ _ _ _ hnew
  refine forall₂_imp_of_mem hf ?_
  intro ep hep c hop
  have hmeth := extract_endpoints_methods _ _ heps ep hep
  obtain ⟨h1, -, h3, h4, h5⟩ := opChunk_ok_spec _ _ _ _ _ hmeth hop
  exact ⟨h1, h3, h4, h5⟩

/-- A concrete one-operation specification document:
`GET /ping` with a summary. -/
def docPing : PyVal :=
  .dict [("paths", .dict [("/ping", .dict [("get", .dict [("summary", .str "Ping")])])])]

def opPing : PyVal := .dict [("summary", .str "Ping")]

def chunkPing : Chunk :=
  { id := "c34b2a37ae412861"
    type := "swagger"
    text := "GET /ping\n\nPing\n\nParameters:\n[]\n\nResponses:\n\x7b\x7d\n\nSecurity: []"
    metadata := [("chunk_type", .str "swagger"),
                 ("chunk_origin", .str "swagger"),
                 ("source_file", .str "api.json"),
                 ("method", .str "get"),
                 ("path", .str "/ping"),
                 ("operation_id", .str "get__ping")] }

/-- C2 counterexample: on the concrete one-operation document the single
emitted chunk's `type` is `"swagger"` (the `ChunkType.SWAGGER` legacy
marker), not `"operation"` as the claim states. -/
theorem C2_counterexample :
    (extractChunksFresh docPing "api.json").map (fun cs => cs.map (fun c => c.type)) =
      .ok ["swagger"] ∧
    ("swagger" : String) ≠ "operation" :=
  ⟨rfl, by decide⟩

/-- C2 amended witness: the concrete document's one `get /ping` endpoint
yields exactly the one `"swagger"` chunk with the expected metadata. -/
theorem C2_witness :
    extract_endpoints docPing = .ok [("get", "/ping", opPing)] ∧
    extractChunksFresh docPing "api.json" = .ok [chunkPing] ∧
    List.Forall₂ (fun ep (c : Chunk) =>
      c.type = ChunkType_SWAGGER ∧
      alookup c.metadata "method" = some (.str ep.1) ∧
      alookup c.metadata "path" = some (.str ep.2.1) ∧
      ∃ opId, pyGet ep.2.2 "operationId"
          (.str (ep.1 ++ "_" ++ pyReplaceChar ep.2.1 '/' '_')) = .ok opId ∧
        alookup c.metadata "operation_id" = some opId)
      [("get", "/ping", opPing)] [chunkPing] :=
  ⟨rfl, rfl,
   C2_amended_one_swagger_chunk_per_operation docPing "api.json" _ _ rfl rfl⟩

/-- C1 witness: the concrete extraction run, whose single chunk's id is the
16-hex-character SHA-256 prefix of its text. -/
theorem C1_witness :
    extractChunksFresh docPing "api.json" = .ok [chunkPing] ∧
    (extractChunksFresh docPing "api.json" = extractChunksFresh docPing "api.json" ∧
     ∀ c ∈ [chunkPing], c.id = strTake (sha256hex c.text) 16) :=
  ⟨rfl, C1_extraction_deterministic_content_addressed docPing "api.json" [chunkPing] rfl⟩

/-! ## Claim C5 (reference resolution) -/

/-- Spec-side walk ("returns exactly the referenced schema object"): the value
reached by looking each segment up in turn. -/
def pathWalk (v : PyVal) : List String → Option PyVal
  | [] => some v
  | p :: rest =>
    match v with
    | .dict es => (alookup es p).bind (fun w => pathWalk w rest)
    | _ => Option.none

/-- Spec-side test that the walk is clean: every intermediate value is a
mapping, every segment is present, and no looked-up value is JSON null. -/
def walksClean (v : PyVal) : List String → Bool
  | [] => true
  | p :: rest =>
    match v with
    | .dict es =>
      match alookup es p with
      | some w => !isNoneB w && walksClean w rest
      | Option.none => false
    | _ => false

theorem resolveSteps_ok_pathWalk (ref : String) :
    ∀ (segs : List String) (cur v : PyVal), resolveSteps ref segs cur = .ok v →
      pathWalk cur segs = some v := by
  intro segs
  induction segs with
  | nil =>
    intro cur v h
    unfold resolveSteps at h
    cases h
    rfl
  | cons p rest ih =>
    intro cur v h
    cases cur with
    | dict es =>
      simp only [resolveSteps] at h
      by_cases hn : isNoneB ((alookup es p).getD PyVal.none) = true
      · rw [if_pos hn] at h
        simp at h
      · rw [if_neg hn] at h
        show (alookup es p).bind (fun w => pathWalk w rest) = some v
        cases halo : alookup es p with
        | none => rw [halo] at hn; simp [Option.getD, isNoneB] at hn
        | some w =>
          rw [halo] at h
          simp only [Option.getD_some] at h
          simp only [Option.some_bind]
          exact ih _ _ h
    | none => simp [resolveSteps] at h
    | bool b => simp [resolveSteps] at h
    | int n => simp [resolveSteps] at h
    | str s => simp [resolveSteps] at h
    | list xs => simp [resolveSteps] at h

theorem resolveSteps_error_shape (ref : String) :
    ∀ (segs : List String) (cur : PyVal) (e : PyErr), resolveSteps ref segs cur = .error e →
      e = .keyError ("Unable to resolve $ref: " ++ ref) ∨ ∃ m, e = .attributeError m := by
  intro segs
  induction segs with
  | nil =>
    intro cur e h
    unfold resolveSteps at h
    simp at h
  | cons p rest ih =>
    intro cur e h
    cases cur with
    | dict es =>
      simp only [resolveSteps] at h
      by_cases hn : isNoneB ((alookup es p).getD PyVal.none) = true
      · rw [if_pos hn] at h
        simp only [Except.error.injEq] at h
        exact Or.inl h.symm
      · rw [if_neg hn] at h
        exact ih _ _ h
    | none => exact Or.inr ⟨_, (by simpa [resolveSteps] using h.symm : _)⟩
    | bool b => exact Or.inr ⟨_, (by simpa [resolveSteps] using h.symm : _)⟩
    | int n => exact Or.inr ⟨_, (by simpa [resolveSteps] using h.symm : _)⟩
    | str s => exact Or.inr ⟨_, (by simpa [resolveSteps] using h.symm : _)⟩
    | list xs => exact Or.inr ⟨_, (by simpa [resolveSteps] using h.symm : _)⟩

theorem resolveSteps_clean_ok (ref : String) :
    ∀ (segs : List String) (cur : PyVal), walksClean cur segs = true →
      ∃ v, resolveSteps ref segs cur = .ok v ∧ pathWalk cur segs = some v := by
  intro segs
  induction segs with
  | nil =>
    intro cur _
    exact ⟨cur, rfl, rfl⟩
  | cons p rest ih =>
    intro cur hclean
    cases cur with
    | dict es =>
      simp only [walksClean] at hclean
      cases halo : alookup es p with
      | none => rw [halo] at hclean; simp at hclean
      | some w =>
        rw [halo] at hclean
        simp only [Bool.and_eq_true, Bool.not_eq_true'] at hclean
        obtain ⟨hw, hcl⟩ := hclean
        obtain ⟨v, hv, hpw⟩ := ih _ hcl
        refine ⟨v, ?_, ?_⟩
        · simp only [resolveSteps, halo, Option.getD_some, hw, if_false,
            Bool.false_eq_true]
          exact hv
        · simp only [pathWalk, halo, Option.some_bind]
          exact hpw
    | none => simp [walksClean] at hclean
    | bool b => simp [walksClean] at hclean
    | int n => simp [walksClean] at hclean
    | str s => simp [walksClean] at hclean
    | list xs => simp [walksClean] at hclean

/-- C5 amended: `_resolve_ref` walks the document segment by segment; when
the walk is clean (every intermediate a mapping, every segment present with a
non-null value) it returns exactly the referenced object; a lookup yielding
`None` — a missing segment or a stored JSON null — raises the `KeyError`
naming the unresolved ref; and calling `.get` on a non-mapping intermediate
raises an `AttributeError` (which does not name the ref).  No partial result
is ever returned (every success is the exact walked value). -/
theorem C5_amended_resolution_trichotomy (doc : PyVal) (ref : String) :
    (∀ v, resolve_ref doc ref = .ok v → pathWalk doc (refSegments ref) = some v) ∧
    (∀ e, resolve_ref doc ref = .error e →
      e = .keyError ("Unable to resolve $ref: " ++ ref) ∨ ∃ m, e = .attributeError m) ∧
    (walksClean doc (refSegments ref) = true →
      ∃ v, resolve_ref doc ref = .ok v ∧ pathWalk doc (refSegments ref) = some v) :=
  ⟨fun _ h => resolveSteps_ok_pathWalk ref _ _ _ h,
   fun _ h => resolveSteps_error_shape ref _ _ _ h,
   fun h => resolveSteps_clean_ok ref _ _ h⟩

/-- C5 counterexample: in `{"a": null}` the segment `"a"` exists and the
referenced schema object is the JSON null, so the claim requires resolution
to return it; the code's `is None` test instead raises the `KeyError` for an
unresolved ref. -/
theorem C5_counterexample :
    resolve_ref (PyVal.dict [("a", PyVal.none)]) "a" =
      .error (.keyError "Unable to resolve $ref: a") ∧
    alookup [("a", PyVal.none)] "a" = some PyVal.none :=
  ⟨rfl, rfl⟩

/-- The specification's own resolution scenario: a document with
`components.schemas.User`. -/
def docUser : PyVal :=
  .dict [("components", .dict [("schemas", .dict [("User", .dict [("type", .str "object")])])])]

/-- C5 amended witness: `#/components/schemas/User` resolves to exactly the
`User` schema object, and a missing path yields the `KeyError` naming the
ref. -/
theorem C5_witness :
    walksClean docUser (refSegments "#/components/schemas/User") = true ∧
    (∃ v, resolve_ref docUser "#/components/schemas/User" = .ok v ∧
      pathWalk docUser (refSegments "#/components/schemas/User") = some v) ∧
    resolve_ref docUser "#/components/schemas/Missing" =
      .error (.keyError "Unable to resolve $ref: #/components/schemas/Missing") ∧
    ((PyErr.keyError "Unable to resolve $ref: #/components/schemas/Missing") =
        .keyError ("Unable to resolve $ref: " ++ "#/components/schemas/Missing") ∨
      ∃ m, (PyErr.keyError "Unable to resolve $ref: #/components/schemas/Missing") =
        .attributeError m) :=
  ⟨rfl,
   (C5_amended_resolution_trichotomy docUser "#/components/schemas/User").2.2 rfl,
   rfl,
   (C5_amended_resolution_trichotomy docUser "#/components/schemas/Missing").2.1 _ rfl⟩

/-! ## Claim C6 (fingerprint discrimination)

The fingerprint is the SHA-256 hex digest of the canonical payload
`json.dumps({"text": ..., "metadata": {"type": ...}}, sort_keys=True)`.
The payload serialisation is injective in the `type` value (shown through a
decoder for the `ensure_ascii` escaping), while the digest itself cannot
separate every pair: its range is finite, so over the infinitude of type
strings two distinct types with an identical fingerprint exist (pigeonhole),
refuting the claim as universally stated. -/

/-- Value of a lowercase hex digit character. -/
def hexVal (c : Char) : Nat := if c.toNat ≤ 57 then c.toNat - 48 else c.toNat - 87

def quadVal (a b c d : Char) : Nat :=
  hexVal a * 4096 + hexVal b * 256 + hexVal c * 16 + hexVal d

def shortUnesc (c : Char) : Char :=
  if c = '"' then '"'
  else if c = '\\' then '\\'
  else if c = 'n' then '\n'
  else if c = 'r' then '\r'
  else if c = 't' then '\t'
  else if c = 'b' then '\x08'
  else if c = 'f' then '\x0c'
  else c

/-- Decoder for the `ensure_ascii` JSON string escaping; it recovers the
original character list from `jsonEscList` output (the escaping is a
prefix-free code: raw printable ASCII, two-character short escapes,
`\uXXXX`, and surrogate pairs for astral characters). -/
def unescList : List Char → List Char
  | [] => []
  | c0 :: rest0 =>
    if c0 = '\\' then
      match rest0 with
      | [] => ['\\']
      | c1 :: rest1 =>
        if c1 = 'u' then
          match rest1 with
          | a :: b :: c :: d :: rest =>
            if 0xD800 ≤ quadVal a b c d ∧ quadVal a b c d ≤ 0xDBFF then
              match rest with
              | '\\' :: 'u' :: a2 :: b2 :: c2 :: d2 :: rest2 =>
                Char.ofNat (0x10000 + (quadVal a b c d - 0xD800) * 0x400 +
                  (quadVal a2 b2 c2 d2 - 0xDC00)) :: unescList rest2
              | _ => []
            else Char.ofNat (quadVal a b c d) :: unescList rest
          | _ => []
        else shortUnesc c1 :: unescList rest1
    else c0 :: unescList rest0

example : unescList (jsonEscList "aé嚴😀Z\n\x7f\"\\: '".data) = "aé嚴😀Z\n\x7f\"\\: '".data := by
  decide

theorem hexVal_hexDig (d : Nat) (h : d < 16) : hexVal (hexDig d) = d := by
  interval_cases d <;> decide

theorem quadVal_hexQuad (v : Nat) (h : v < 0x10000) :
    quadVal (hexDig (v / 4096 % 16)) (hexDig (v / 256 % 16))
      (hexDig (v / 16 % 16)) (hexDig (v % 16)) = v := by
  unfold quadVal
  rw [hexVal_hexDig _ (Nat.mod_lt _ (by norm_num)),
    hexVal_hexDig _ (Nat.mod_lt _ (by norm_num)),
    hexVal_hexDig _ (Nat.mod_lt _ (by norm_num)),
    hexVal_hexDig _ (Nat.mod_lt _ (by norm_num))]
  omega

theorem unescList_raw (c : Char) (rest : List Char) (h : ¬(c = '\\')) :
    unescList (c :: rest) = c :: unescList rest := by
  rw [unescList.eq_def]
  simp [h]

theorem unescList_shortEsc (e : Char) (rest : List Char) (hne : ¬(e = 'u')) :
    unescList ('\\' :: e :: rest) = shortUnesc e :: unescList rest := by
  rw [unescList.eq_def]
  simp [hne]

theorem unescList_u (a b c d : Char) (rest : List Char)
    (h : ¬(0xD800 ≤ quadVal a b c d ∧ quadVal a b c d ≤ 0xDBFF)) :
    unescList ('\\' :: 'u' :: a :: b :: c :: d :: rest) =
      Char.ofNat (quadVal a b c d) :: unescList rest := by
  rw [unescList.eq_def]
  simp [h]

theorem unescList_u2 (a b c d a2 b2 c2 d2 : Char) (rest : List Char)
    (h : 0xD800 ≤ quadVal a b c d ∧ quadVal a b c d ≤ 0xDBFF) :
    unescList ('\\' :: 'u' :: a :: b :: c :: d :: '\\' :: 'u' :: a2 :: b2 :: c2 :: d2 :: rest) =
      Char.ofNat (0x10000 + (quadVal a b c d - 0xD800) * 0x400 +
        (quadVal a2 b2 c2 d2 - 0xDC00)) :: unescList rest := by
  rw [unescList.eq_def]
  simp [h]

theorem unescList_escChar (c : Char) (rest : List Char) :
    unescList (jsonEscChar c ++ rest) = c :: unescList rest := by
  by_cases h1 : c = '"'
  · subst h1
    rw [show jsonEscChar '"' ++ rest = '\\' :: '"' :: rest from rfl,
      unescList_shortEsc _ _ (by decide)]
    rfl
  by_cases h2 : c = '\\'
  · subst h2
    rw [show jsonEscChar '\\' ++ rest = '\\' :: '\\' :: rest from rfl,
      unescList_shortEsc _ _ (by decide)]
    rfl
  by_cases h3 : c = '\n'
  · subst h3
    rw [show jsonEscChar '\n' ++ rest = '\\' :: 'n' :: rest from rfl,
      unescList_shortEsc _ _ (by decide)]
    rfl
  by_cases h4 : c = '\r'
  · subst h4
    rw [show jsonEscChar '\r' ++ rest = '\\' :: 'r' :: rest from rfl,
      unescList_shortEsc _ _ (by decide)]
    rfl
  by_cases h5 : c = '\t'
  · subst h5
    rw [show jsonEscChar '\t' ++ rest = '\\' :: 't' :: rest from rfl,
      unescList_shortEsc _ _ (by decide)]
    rfl
  by_cases h6 : c.toNat = 8
  · have hc : c = '\x08' := by rw [← Char.ofNat_toNat c, h6]
    subst hc
    rw [show jsonEscChar '\x08' ++ rest = '\\' :: 'b' :: rest from rfl,
      unescList_shortEsc _ _ (by decide)]
    rfl
  by_cases h7 : c.toNat = 12
  · have hc : c = '\x0c' := by rw [← Char.ofNat_toNat c, h7]
    subst hc
    rw [show jsonEscChar '\x0c' ++ rest = '\\' :: 'f' :: rest from rfl,
      unescList_shortEsc _ _ (by decide)]
    rfl
  have hval : c.toNat < 0xd800 ∨ (0xdfff < c.toNat ∧ c.toNat < 0x110000) := c.valid
  by_cases h8 : c.toNat < 0x20
  · have hesc : jsonEscChar c = '\\' :: 'u' :: hexQuad c.toNat := by
      unfold jsonEscChar
      rw [if_neg h1, if_neg h2, if_neg h3, if_neg h4, if_neg h5, if_neg h6, if_neg h7, if_pos h8]
    rw [hesc]
    simp only [hexQuad, List.cons_append, List.nil_append]
    have hquad := quadVal_hexQuad c.toNat (by omega)
    rw [unescList_u _ _ _ _ _ (by rw [hquad]; omega), hquad, Char.ofNat_toNat]
  by_cases h9 : c.toNat < 0x7f
  · have hesc : jsonEscChar c = [c] := by
      unfold jsonEscChar
      rw [if_neg h1, if_neg h2, if_neg h3, if_neg h4, if_neg h5, if_neg h6, if_neg h7,
        if_neg h8, if_pos h9]
    rw [hesc]
    simp only [List.cons_append, List.nil_append]
    exact unescList_raw c rest h2
  by_cases h10 : c.toNat < 0x10000
  · have hesc : jsonEscChar c = '\\' :: 'u' :: hexQuad c.toNat := by
      unfold jsonEscChar
      rw [if_neg h1, if_neg h2, if_neg h3, if_neg h4, if_neg h5, if_neg h6, if_neg h7,
        if_neg h8, if_neg h9, if_pos h10]
    rw [hesc]
    simp only [hexQuad, List.cons_append, List.nil_append]
    have hquad := quadVal_hexQuad c.toNat (by omega)
    rw [unescList_u _ _ _ _ _ (by rw [hquad]; omega), hquad, Char.ofNat_toNat]
  · have hesc : jsonEscChar c =
        '\\' :: 'u' :: hexQuad (0xD800 + (c.toNat - 0x10000) / 0x400) ++
        '\\' :: 'u' :: hexQuad (0xDC00 + (c.toNat - 0x10000) % 0x400) := by
      unfold jsonEscChar
      rw [if_neg h1, if_neg h2, if_neg h3, if_neg h4, if_neg h5, if_neg h6, if_neg h7,
        if_neg h8, if_neg h9, if_neg h10]
    rw [hesc]
    simp only [hexQuad, List.cons_append, List.nil_append, List.append_assoc]
    have hhi := quadVal_hexQuad (0xD800 + (c.toNat - 0x10000) / 0x400) (by omega)
    have hlo := quadVal_hexQuad (0xDC00 + (c.toNat - 0x10000) % 0x400) (by omega)
    rw [unescList_u2 _ _ _ _ _ _ _ _ _ (by rw [hhi]; omega), hhi, hlo]
    have hv : 0x10000 + (0xD800 + (c.toNat - 0x10000) / 0x400 - 0xD800) * 0x400 +
        (0xDC00 + (c.toNat - 0x10000) % 0x400 - 0xDC00) = c.toNat := by omega
    rw [hv, Char.ofNat_toNat]

theorem unescList_escList (l : List Char) : unescList (jsonEscList l) = l := by
  induction l with
  | nil => rfl
  | cons c t ih =>
    show unescList (jsonEscChar c ++ jsonEscList t) = c :: t
    rw [unescList_escChar, ih]

theorem jsonEscList_inj {l1 l2 : List Char} (h : jsonEscList l1 = jsonEscList l2) :
    l1 = l2 := by
  rw [← unescList_escList l1, h, unescList_escList]

theorem strAppend_cancel_right {a b c : String} (h : a ++ c = b ++ c) : a = b := by
  have hd := congrArg String.data h
  simp only [String.data_append] at hd
  have h2 := List.append_cancel_right hd
  cases a
  cases b
  exact congrArg String.mk h2

theorem strAppend_cancel_left {a b c : String} (h : c ++ a = c ++ b) : a = b := by
  have hd := congrArg String.data h
  simp only [String.data_append] at hd
  have h2 := List.append_cancel_left hd
  cases a
  cases b
  exact congrArg String.mk h2

theorem jsonStrLit_inj {t1 t2 : String} (h : jsonStrLit t1 = jsonStrLit t2) : t1 = t2 := by
  have hd : '"' :: jsonEscList t1.data ++ ['"'] = '"' :: jsonEscList t2.data ++ ['"'] :=
    congrArg String.data h
  have h2 := List.append_cancel_right (List.cons_injective.eq_iff.mp hd)
  have h3 := jsonEscList_inj h2
  cases t1
  cases t2
  exact congrArg String.mk h3

/-- The canonical payload of `_compute_hash` for metadata `{"type": t}`, in
its exact serialised shape: `sort_keys` puts `"metadata"` before `"text"`. -/
theorem hashPayload_shape (text t : String) :
    hashPayload text [("type", .str t)] =
      "\x7b" ++ (jsonStrLit "metadata" ++ ": " ++
        ("\x7b" ++ (jsonStrLit "type" ++ ": " ++ jsonStrLit t) ++ "\x7d") ++ ", " ++
        (jsonStrLit "text" ++ ": " ++ jsonStrLit (pyStrip text))) ++ "\x7d" := rfl

/-- C6 amended: two cache calls with identical text but different `type`
metadata always hash different canonical payloads (the serialisation is
injective in the type value), so their fingerprints can coincide only on a
SHA-256 collision between two distinct payloads — which exists over all type
strings by pigeonhole (`C6` counterexample) but is not exhibitable. -/
theorem C6_amended_payloads_differ (text t1 t2 : String) (hne : t1 ≠ t2) :
    hashPayload text [("type", PyVal.str t1)] ≠ hashPayload text [("type", PyVal.str t2)] := by
  intro h
  apply hne
  rw [hashPayload_shape, hashPayload_shape] at h
  have h1 := strAppend_cancel_right h
  have h2 := strAppend_cancel_left h1
  have h3 := strAppend_cancel_right h2
  have h4 := strAppend_cancel_right h3
  have h5 := strAppend_cancel_left h4
  have h6 := strAppend_cancel_right h5
  have h7 := strAppend_cancel_left h6
  have h8 := strAppend_cancel_left h7
  exact jsonStrLit_inj h8

/-- C6 amended witness: two concrete types with the same text. -/
theorem C6_amended_witness :
    ("a" : String) ≠ "b" ∧
    hashPayload "x" [("type", PyVal.str "a")] ≠ hashPayload "x" [("type", PyVal.str "b")] :=
  ⟨by decide, C6_amended_payloads_differ "x" "a" "b" (by decide)⟩

def hash8Bounded (H : Hash8) : Prop :=
  H.h0 < M32 ∧ H.h1 < M32 ∧ H.h2 < M32 ∧ H.h3 < M32 ∧
  H.h4 < M32 ∧ H.h5 < M32 ∧ H.h6 < M32 ∧ H.h7 < M32

theorem add32_lt (a b : Nat) : add32 a b < M32 := Nat.mod_lt _ (by norm_num [M32])

theorem compressBlock_bounded (H : Hash8) (bl : List Nat) :
    hash8Bounded (compressBlock H bl) :=
  ⟨add32_lt .., add32_lt .., add32_lt .., add32_lt ..,
   add32_lt .., add32_lt .., add32_lt .., add32_lt ..⟩

theorem foldl_compress_bounded (bls : List (List Nat)) (H : Hash8) (h : hash8Bounded H) :
    hash8Bounded (bls.foldl compressBlock H) := by
  induction bls generalizing H with
  | nil => exact h
  | cons b t ih => exact ih _ (compressBlock_bounded H b)

theorem shaWords_bounded (msg : List Nat) : hash8Bounded (shaWords msg) :=
  foldl_compress_bounded _ _ (by constructor <;> simp [initH, M32])

/-- The SHA-256 state words of the fingerprint payload for type `t` and the
empty text. -/
def c6words (t : String) : Hash8 :=
  shaWords (utf8Encode (hashPayload "" [("type", PyVal.str t)]))

/-- The fingerprint words as a point of the finite space `(Fin 2^32)^8`. -/
def c6g (t : String) :
    Fin M32 × Fin M32 × Fin M32 × Fin M32 × Fin M32 × Fin M32 × Fin M32 × Fin M32 :=
  ⟨⟨(c6words t).h0, (shaWords_bounded _).1⟩,
   ⟨(c6words t).h1, (shaWords_bounded _).2.1⟩,
   ⟨(c6words t).h2, (shaWords_bounded _).2.2.1⟩,
   ⟨(c6words t).h3, (shaWords_bounded _).2.2.2.1⟩,
   ⟨(c6words t).h4, (shaWords_bounded _).2.2.2.2.1⟩,
   ⟨(c6words t).h5, (shaWords_bounded _).2.2.2.2.2.1⟩,
   ⟨(c6words t).h6, (shaWords_bounded _).2.2.2.2.2.2.1⟩,
   ⟨(c6words t).h7, (shaWords_bounded _).2.2.2.2.2.2.2⟩⟩

theorem hash8_ext {A B : Hash8} (h0 : A.h0 = B.h0) (h1 : A.h1 = B.h1)
    (h2 : A.h2 = B.h2) (h3 : A.h3 = B.h3) (h4 : A.h4 = B.h4) (h5 : A.h5 = B.h5)
    (h6 : A.h6 = B.h6) (h7 : A.h7 = B.h7) : A = B := by
  cases A
  cases B
  simp_all

/-- C6 counterexample: the claim as universally stated is false.  The
fingerprint is a SHA-256 digest, a function into the finite space of 8
32-bit words, while the type strings are infinite; by pigeonhole two distinct
type strings with identical text (here the empty text) receive the same
computed fingerprint, so "the computed fingerprints differ" cannot hold for
every pair.  (No concrete colliding pair is computable — this is exactly
collision existence for SHA-256 — which is why the amended claim moves to
the payload level.) -/
theorem C6_counterexample :
    ¬ (∀ (t1 t2 text : String), t1 ≠ t2 →
        compute_hash text [("type", PyVal.str t1)] ≠ compute_hash text [("type", PyVal.str t2)]) := by
  intro hclaim
  obtain ⟨t1, t2, hne, heq⟩ := Finite.exists_ne_map_eq_of_infinite c6g
  apply hclaim t1 t2 "" hne
  have hw : c6words t1 = c6words t2 := by
    simp only [c6g, Prod.mk.injEq, Fin.mk.injEq] at heq
    obtain ⟨e0, e1, e2, e3, e4, e5, e6, e7⟩ := heq
    exact hash8_ext e0 e1 e2 e3 e4 e5 e6 e7
  show hash8Hex (c6words t1) = hash8Hex (c6words t2)
  rw [hw]

/-- C9 witness: a concrete chunk of unknown type `"weird"` on a cold cache is
coerced and embedded. -/
theorem C9_witness :
    ((⟨some "c1", some "weird", some "hello"⟩ : RawChunk).id = some "c1") ∧
    ("weird" ∉ ChunkType_values) ∧
    (∃ e' v, embed_texts (⟨⟨[], .absent⟩, fun ts => ts.map (fun _ => [0])⟩ : Engine Nat)
      [⟨some "c1", some "weird", some "hello"⟩] =
        .ok (e', [⟨"c1", ChunkType_TEXT, "hello", v⟩])) :=
  ⟨rfl, by decide,
   C9_unknown_type_coerced_and_embedded _ _ "c1" "weird" "hello" rfl rfl rfl
     (by decide) (fun ts => by simp)⟩
